import Mathlib

/-!
Verification development for the remote-to-local project snapshot
synchronization engine (`RemoteProjectSnapshot.cpp`).

The session is embedded as an explicit state machine: the constructor
(`construct`) computes the known-block set and either short-circuits or
builds the pending-request list, and the concurrent execution (scheduler
thread plus per-response completion handlers) is modelled as an
interleaving of atomic events (`Event`) acting on a `SessionState` through
the executable transition function `step`.  Each completion handler runs
as one atomic event; reports emitted through the callback are accumulated
in `SessionState.reports` in emission order.
-/

/-- Block descriptor of a snapshot: content hash and fetch location
(`SnapshotInfo::Blocks` entries). -/
structure BlockInfo where
  Hash : String
  Url : String
deriving Repr, DecidableEq

/-- Snapshot descriptor: id, project-blob url and the ordered block list. -/
structure SnapshotInfo where
  Id : String
  FileUrl : String
  Blocks : List BlockInfo
deriving Repr, DecidableEq

/-- Modelled from the spec: the sync status stored in the external
project sync record (`DBProjectData::SyncStatus`, declared in
`CloudProjectsDatabase.h`, which is not part of the sources; the spec
gives the two states Downloading and Synced). -/
inductive DBSyncStatus
  | SyncStatusDownloading
  | SyncStatusSynced
deriving Repr, DecidableEq, BEq

/-- Modelled from the spec: the external metadata record for a project
(`DBProjectData`, declared outside the sources); only the fields the
session construction reads are modelled: the snapshot id and the sync
status. -/
structure DBProjectData where
  SnapshotId : String
  SyncStatus : DBSyncStatus
deriving Repr, DecidableEq

/-- Modelled from the spec: the report passed to the session callback
(`RemoteProjectSnapshotState`, declared in `RemoteProjectSnapshot.h`,
which is not part of the sources).  Field names and order follow the
spec's callback contract; the braced initializer lists in the source map
to these fields positionally, and a field omitted from an initializer
list keeps its default value. -/
structure RemoteProjectSnapshotState where
  downloadedBlocks : Nat := 0
  missingBlocks : Nat := 0
  error : String := ""
  projectBlobDownloaded : Bool := false
  completed : Bool := false
  success : Bool := false
  cancelled : Bool := false
deriving Repr, DecidableEq

/-- Tag distinguishing the project-blob request from a block request
(the source captures this in the success-handler closure of each
pending request). -/
inductive RequestKind
  | projectBlob
  | block (hash : String)
deriving Repr, DecidableEq

/-- True on block requests, false on the project-blob request. -/
def RequestKind.isBlock : RequestKind → Bool
  | .projectBlob => false
  | .block _ => true

/-- Pending request: url plus the kind of its success handler
(`mRequests` entries). -/
structure PendingRequest where
  url : String
  kind : RequestKind
deriving Repr, DecidableEq

/-- Hash normalization (`ToUpper` from `StringUtils`): hashes are
compared after uppercasing. -/
def ToUpper (s : String) : String := ⟨s.data.map Char.toUpper⟩

/-- Uppercased hashes of all blocks of the snapshot, in list order
(the `remoteBlocks` set is built from these). -/
def remoteBlockHashes (snapshot : SnapshotInfo) : List String :=
  snapshot.Blocks.map (fun b => ToUpper b.Hash)

/-- `CalculateKnownBlocks`: of the hashes recorded in the local
`block_hashes` index that also have a payload row in the attached
snapshot storage (`localHashes`, the rows the SQL query ranges over),
keep those that occur among the snapshot's uppercased block hashes and
collect them into a set (the C++ inserts into an `unordered_set`, hence
the dedup). -/
def CalculateKnownBlocks (snapshot : SnapshotInfo) (localHashes : List String) : List String :=
  (localHashes.filter (fun h => (remoteBlockHashes snapshot).contains h)).dedup

/-- Lifecycle of one pending request in the model: not yet dispatched,
dispatched with a fetch in flight (recording whether `abort()` has been
requested on its response), resolved successfully (payload committed),
terminally failed (`OnFailure` ran for it), or finished as an aborted
operation (`OperationCancelled`). -/
inductive ReqStatus
  | pending
  | inFlight (abortRequested : Bool)
  | succeeded
  | failedReq
  | abortedReq
deriving Repr, DecidableEq

/-- Mutable session state: the request list (as built at construction)
with each request's lifecycle status, the scheduler cursor
(`mNextRequestIndex`), the in-flight counter (`mRequestsInProgress`, an
`Int` because the failure path decrements it twice for one request),
the progress counters and flags, all reports emitted so far, and the
committed `(dict, doc)` project record of the local store. -/
structure SessionState where
  requests : List (PendingRequest × ReqStatus)
  nextRequestIndex : Nat
  requestsInProgress : Int
  downloadedBlocks : Nat
  missingBlocks : Nat
  projectDownloaded : Bool
  failed : Bool
  cancelled : Bool
  reports : List RemoteProjectSnapshotState
  projectRecord : Option (List (Fin 256) × List (Fin 256))
deriving Repr, DecidableEq

/-- Pending-request list built once at construction: the project blob
first, then one request per block whose uppercased hash is not in the
known-block set, in snapshot order. -/
def mkRequests (snapshot : SnapshotInfo) (knownBlocks : List String) : List PendingRequest :=
  ⟨snapshot.FileUrl, .projectBlob⟩ ::
    (snapshot.Blocks.filter
        (fun b => !(knownBlocks.contains (ToUpper b.Hash)))).map
      (fun b => ⟨b.Url, .block (ToUpper b.Hash)⟩)

/-- Initial session state for a session that did not short-circuit:
`missingBlocks = totalBlocks - knownCount`, the request list as built at
construction, zero counters and clear flags. -/
def initSession (snapshot : SnapshotInfo) (knownBlocks : List String) : SessionState where
  requests := (mkRequests snapshot knownBlocks).map (fun r => (r, .pending))
  nextRequestIndex := 0
  requestsInProgress := 0
  downloadedBlocks := 0
  missingBlocks := snapshot.Blocks.length - knownBlocks.length
  projectDownloaded := false
  failed := false
  cancelled := false
  reports := []
  projectRecord := none

/-- Check of the external record against this snapshot: present, same
snapshot id and status Synced. -/
def syncInfoMatchesSynced (snapshot : SnapshotInfo) : Option DBProjectData → Bool
  | some info => info.SnapshotId == snapshot.Id && info.SyncStatus == .SyncStatusSynced
  | none => false

/-- Result of session construction (after a successful attach): either
the short-circuit (the single report is emitted, no request list is
built, no scheduler thread starts and no network activity occurs), or a
started session with its initial state (the scheduler thread starts and
will issue the pending requests). -/
inductive ConstructResult
  | shortCircuit (report : RemoteProjectSnapshotState)
  | started (s : SessionState)
deriving Repr, DecidableEq

/-- Session construction (`RemoteProjectSnapshot::RemoteProjectSnapshot`
after a successful attach): compute the known-block set; if its size
equals the block-list length and the external record shows this exact
snapshot as Synced, short-circuit with the report
`{ 0, 0, {}, true, true, true }` (the `cancelled` field keeps its
default `false`); otherwise build the request list and start. -/
def construct (snapshot : SnapshotInfo) (localHashes : List String)
    (syncInfo : Option DBProjectData) : ConstructResult :=
  let knownBlocks := CalculateKnownBlocks snapshot localHashes
  if knownBlocks.length = snapshot.Blocks.length &&
      syncInfoMatchesSynced snapshot syncInfo then
    .shortCircuit { downloadedBlocks := 0, missingBlocks := 0, error := "",
                    projectBlobDownloaded := true, completed := true,
                    success := true, cancelled := false }
  else
    .started (initSession snapshot knownBlocks)

/-- Discriminator: did construction short-circuit? -/
def isShortCircuit : ConstructResult → Bool
  | .shortCircuit _ => true
  | .started _ => false

/-- Initial state of a started construction, if any. -/
def startedState : ConstructResult → Option SessionState
  | .shortCircuit _ => none
  | .started s => some s

/-- Does the known-block set cover every required block of the
snapshot? -/
def coversAll (snapshot : SnapshotInfo) (known : List String) : Bool :=
  snapshot.Blocks.all (fun b => known.contains (ToUpper b.Hash))

/-- Little-endian value of a byte sequence: the first byte is least
significant (the `memcpy` into a `uint64_t` on a little-endian host,
with `SwapIntBytes` correcting big-endian hosts). -/
def leUInt64 (bytes : List (Fin 256)) : Nat :=
  bytes.foldr (fun b acc => acc * 256 + b.val) 0

/-- Framing validation of a downloaded project blob
(`OnProjectBlobDownloaded`, lines 256-308): reject payloads shorter
than 8 bytes; read the 8-byte little-endian dictionary length; reject
when `data.size() < 8 + dictSize` — note that the source computes
`8 + dictSize` in `uint64_t` arithmetic, so the sum wraps modulo 2^64;
otherwise the dictionary bytes and the document bytes are bound into
the project record (for declared lengths that make the sum wrap, the
source reads out of bounds; the payload split modelled here is only
used for accepted payloads). -/
def parseProjectBlob (data : List (Fin 256)) :
    Option (List (Fin 256) × List (Fin 256)) :=
  if data.length < 8 then none
  else
    let dictSize := leUInt64 (data.take 8)
    if data.length < (8 + dictSize) % 2 ^ 64 then none
    else some ((data.drop 8).take dictSize, data.drop ((8 + dictSize) % 2 ^ 64))

/-- Replace the status of request `i`, keeping the request itself. -/
def setStatus (s : SessionState) (i : Nat) (st : ReqStatus) : SessionState :=
  match s.requests[i]? with
  | some (req, _) => { s with requests := s.requests.set i (req, st) }
  | none => s

/-- Append one report, modelling an invocation of `mCallback`. -/
def appendReport (s : SessionState) (r : RemoteProjectSnapshotState) : SessionState :=
  { s with reports := s.reports ++ [r] }

/-- `RemoveRequest`: drop the response from `mResponses`, decrement
`mRequestsInProgress` and wake the scheduler. -/
def RemoveRequest (s : SessionState) : SessionState :=
  { s with requestsInProgress := s.requestsInProgress - 1 }

/-- Report emitted by `OnFailure` (lines 457-460): current counts,
the error text, current `mProjectDownloaded`, then positionally
`true, false, false`. -/
def failureReport (s : SessionState) (err : String) : RemoteProjectSnapshotState :=
  { downloadedBlocks := s.downloadedBlocks, missingBlocks := s.missingBlocks,
    error := err, projectBlobDownloaded := s.projectDownloaded,
    completed := true, success := false, cancelled := false }

/-- `OnFailure`: set the failed flag, run `RemoveRequest` for the
response, and invoke the callback with the failure report. -/
def OnFailure (s : SessionState) (i : Nat) (err : String) : SessionState :=
  let s1 := { RemoveRequest (setStatus s i .failedReq) with failed := true }
  appendReport s1 (failureReport s1 err)

/-- `ReportProgress`: return silently when cancelled; otherwise compute
`completed = (downloadedBlocks == missingBlocks) && projectDownloaded`
and invoke the callback with
`{ blocksDownloaded, missingBlocks, {}, projectDownloaded, completed, completed, false }`. -/
def ReportProgress (s : SessionState) : SessionState :=
  if s.cancelled then s
  else
    let completed := s.downloadedBlocks == s.missingBlocks && s.projectDownloaded
    appendReport s
      { downloadedBlocks := s.downloadedBlocks, missingBlocks := s.missingBlocks,
        error := "", projectBlobDownloaded := s.projectDownloaded,
        completed := completed, success := completed, cancelled := false }

/-- `OnProjectBlobDownloaded` as the success handler of request `i`
(which the source reaches only for the project-blob request), followed
by the unconditional `RemoveRequest` that `DownloadBlob`'s finished
callback performs after `onSuccess` returns — on the validation- or
commit-failure paths this is a second decrement on top of the one
inside `OnFailure`.  `commitOk` models whether the statement
preparation, execution and transaction commit against the local store
all succeed; on commit failure the transaction leaves no partial
record. -/
def OnProjectBlobDownloaded (s : SessionState) (i : Nat) (data : List (Fin 256))
    (commitOk : Bool) : SessionState :=
  match parseProjectBlob data with
  | none => RemoveRequest (OnFailure s i "Failed to download the cloud project")
  | some record =>
    if commitOk then
      let s1 := setStatus
        { s with projectRecord := some record, projectDownloaded := true } i .succeeded
      RemoveRequest (ReportProgress s1)
    else
      RemoveRequest (OnFailure s i "Failed to update the cloud project")

/-- `OnBlockDownloaded` as the success handler of block request `i`,
followed by the unconditional `RemoveRequest` of `DownloadBlob`'s
finished callback.  `decodeOk` models whether `DecompressBlock`
produced a decoded block (the codec is opaque); `commitOk` models the
hash-index upsert, the payload upsert and the transaction commit.  On
the ok path the downloaded counter increments by one and progress is
reported. -/
def OnBlockDownloaded (s : SessionState) (i : Nat) (decodeOk commitOk : Bool) :
    SessionState :=
  if !decodeOk then
    RemoveRequest (OnFailure s i "Failed to decompress the cloud project block")
  else if !commitOk then
    RemoveRequest (OnFailure s i "Failed to update the cloud project block")
  else
    let s1 := setStatus { s with downloadedBlocks := s.downloadedBlocks + 1 } i .succeeded
    RemoveRequest (ReportProgress s1)

/-- `DoCancel`: set the cancellation flag, wake the scheduler, and call
`abort()` on every tracked in-flight response (best effort: the
transport resolves each aborted operation later). -/
def DoCancel (s : SessionState) : SessionState :=
  { s with cancelled := true,
           requests := s.requests.map (fun p =>
             match p.2 with
             | .inFlight _ => (p.1, .inFlight true)
             | _ => p) }

/-- Report emitted by `Cancel` (lines 133-139): current counts, empty
error, current `mProjectDownloaded`, then positionally
`true, false, true`. -/
def cancelReport (s : SessionState) : RemoteProjectSnapshotState :=
  { downloadedBlocks := s.downloadedBlocks, missingBlocks := s.missingBlocks,
    error := "", projectBlobDownloaded := s.projectDownloaded,
    completed := true, success := false, cancelled := true }

/-- `Cancel`: `DoCancel` followed by a synchronous callback invocation
with the cancel report. -/
def Cancel (s : SessionState) : SessionState :=
  let s1 := DoCancel s
  appendReport s1 (cancelReport s1)

/-- The concurrency ceiling of the scheduler (`MAX_CONCURRENT_REQUESTS`). -/
def MAX_CONCURRENT_REQUESTS : Int := 6

/-- Outcome of one resolved fetch chain delivered to a request's
finished callback: the operation was aborted, the chain ended in a
terminal network failure (client error, or server/transport error with
the retry budget exhausted), or the download succeeded and the success
handler runs with the given payload/decode and commit outcomes. -/
inductive Resolution
  | opCancelled
  | netFailure
  | blobOk (data : List (Fin 256)) (commitOk : Bool)
  | blockOk (decodeOk : Bool) (commitOk : Bool)
deriving Repr, DecidableEq

/-- Atomic events of the interleaved execution: one successful pass of
the scheduler loop body (dispatching the next pending request), the
resolution of the in-flight request at index `i`, and a `Cancel()` call
from the caller's thread. -/
inductive Event
  | dispatch
  | resolve (i : Nat) (r : Resolution)
  | cancel
deriving Repr, DecidableEq

/-- One atomic transition.  `dispatch` mirrors one iteration of
`RequestsThread`: it requires `WantsNextRequest()` (not cancelled and
not failed), an in-flight count strictly below the ceiling (otherwise
the loop blocks on the condition variable), and a remaining pending
request at the cursor; it dispatches that request and increments the
in-flight count.  `resolve i r` requires request `i` to be in flight
and delivers its chain outcome to the matching handler.  `cancel` is
always enabled.

Granularity caveat: each completion handler (and `Cancel`'s flag store
plus callback) runs here as one atomic event, whereas the source holds
no lock spanning a handler body — the db write lock is released before
`fetch_add`, and `ReportProgress` checks `mCancelled`, loads the
counters and invokes the callback unlocked.  This model therefore
over-serializes reports: conclusions drawn from it are restricted to
properties that do not depend on handler atomicity (counter bounds from
per-request commit counts, per-invocation report contents, the
mutex-protected in-flight count, and the effect of the failed flag,
each justified against the unsynchronized source where used).  In
particular, neither an at-most-one bound on success reports nor
report-order properties across a concurrent `Cancel()` are claimed
anywhere below. -/
def step (s : SessionState) : Event → Option SessionState
  | .dispatch =>
    if s.cancelled || s.failed then none
    else if MAX_CONCURRENT_REQUESTS ≤ s.requestsInProgress then none
    else
      match s.requests[s.nextRequestIndex]? with
      | some (_, .pending) =>
        some { setStatus s s.nextRequestIndex (.inFlight false) with
               nextRequestIndex := s.nextRequestIndex + 1,
               requestsInProgress := s.requestsInProgress + 1 }
      | _ => none
  | .resolve i r =>
    match s.requests[i]? with
    | some (req, .inFlight _) =>
      match r, req.kind with
      | .opCancelled, _ => some (RemoveRequest (setStatus s i .abortedReq))
      | .netFailure, _ => some (OnFailure s i "Failed to download the cloud project")
      | .blobOk data commitOk, .projectBlob =>
        some (OnProjectBlobDownloaded s i data commitOk)
      | .blockOk decodeOk commitOk, .block _ =>
        some (OnBlockDownloaded s i decodeOk commitOk)
      | _, _ => none
    | _ => none
  | .cancel => some (Cancel s)

/-- Run a list of events from a state; `none` if any event is not
enabled. -/
def run (s : SessionState) : List Event → Option SessionState
  | [] => some s
  | e :: es =>
    match step s e with
    | some s' => run s' es
    | none => none

/-- Predicate: the pair is the project-blob request. -/
def isBlobPair (p : PendingRequest × ReqStatus) : Bool := !p.1.kind.isBlock

/-- Predicate: the pair is a block request. -/
def isBlockPair (p : PendingRequest × ReqStatus) : Bool := p.1.kind.isBlock

/-- Predicate: a block request that has been resolved successfully
(its payload was decoded and committed). -/
def isSuccBlockPair (p : PendingRequest × ReqStatus) : Bool :=
  p.2 == ReqStatus.succeeded && p.1.kind.isBlock

/-- Predicate: the project-blob request has been resolved successfully. -/
def isSuccBlobPair (p : PendingRequest × ReqStatus) : Bool :=
  p.2 == ReqStatus.succeeded && !p.1.kind.isBlock

/-- Predicate: a terminally failed request. -/
def isFailedPair (p : PendingRequest × ReqStatus) : Bool := p.2 == ReqStatus.failedReq

/-- Predicate on reports: the success field is set. -/
def reportSuccess (r : RemoteProjectSnapshotState) : Bool := r.success

/-- Predicate on reports: a non-empty error string. -/
def reportHasError (r : RemoteProjectSnapshotState) : Bool := r.error != ""

/-- Predicate on reports: the cancelled field is set. -/
def reportCancelled (r : RemoteProjectSnapshotState) : Bool := r.cancelled

/-- Data-flow property of a single report: if it announces success, its
own fields show the work complete.  `ReportProgress` loads the counters
once into locals, computes `completed` from those same locals and passes
them positionally into the callback struct, so this holds of every
report the source can emit regardless of how handler bodies interleave:
it never depends on two separate reads of the shared counters agreeing. -/
def goodReport (r : RemoteProjectSnapshotState) : Prop :=
  reportSuccess r = true →
    r.downloadedBlocks = r.missingBlocks ∧ r.projectBlobDownloaded = true ∧
    r.completed = true ∧ r.error = "" ∧ r.cancelled = false

/-- Event classification: a successfully decoded and committed block
download (the only event that increments the downloaded counter). -/
def isBlockCommit (s : SessionState) : Event → Bool
  | .resolve i (.blockOk true true) =>
    match s.requests[i]? with
    | some (req, .inFlight _) => req.kind.isBlock
    | _ => false
  | _ => false

/-- Inductive invariant tying the session's counters, flags and emitted
reports to the per-request lifecycle statuses.  It holds in the initial
state of every started session and is preserved by every event. -/
structure SessionInv (s : SessionState) : Prop where
  blobOne : s.requests.countP isBlobPair = 1
  blocksLe : s.requests.countP isBlockPair ≤ s.missingBlocks
  dEq : s.downloadedBlocks = s.requests.countP isSuccBlockPair
  pdIff : s.projectDownloaded = true ↔ 0 < s.requests.countP isSuccBlobPair
  failedIff : s.failed = true ↔ 0 < s.requests.countP isFailedPair
  inProg : s.requestsInProgress ≤ 6
  succLe : s.reports.countP reportSuccess ≤
    (if s.downloadedBlocks = s.missingBlocks ∧ s.projectDownloaded = true then 1 else 0)
  errEq : s.reports.countP reportHasError = s.requests.countP isFailedPair
  cancRep : 0 < s.reports.countP reportCancelled → s.cancelled = true
  cancOrd : ∀ i j, (hi : i < s.reports.length) → (hj : j < s.reports.length) → i < j →
    (s.reports.get ⟨i, hi⟩).cancelled = true → (s.reports.get ⟨j, hj⟩).success = false
  repGood : ∀ r ∈ s.reports, goodReport r

/-- Example snapshot with one block and nothing known locally, used to
witness the trace theorems on a concrete session. -/
def snapEx : SnapshotInfo := ⟨"snapEx", "urlE", [⟨"h1", "u1"⟩]⟩

/-- Initial state of the example session for `snapEx`. -/
def sEx : SessionState := initSession snapEx (CalculateKnownBlocks snapEx [])

/-- Snapshot whose two block descriptors normalize to the same hash,
used against claims about full local coverage. -/
def snapDup : SnapshotInfo := ⟨"snapDup", "urlD", [⟨"a", "u1"⟩, ⟨"A", "u2"⟩]⟩

/-- External record showing `snapDup` as Synced. -/
def infoDup : DBProjectData := ⟨"snapDup", .SyncStatusSynced⟩

/-- Snapshot with a duplicated hash that is locally known plus one more
block, exhibiting the stalled-progress anomaly. -/
def snapDup3 : SnapshotInfo := ⟨"snapDup3", "urlD3", [⟨"a", "u1"⟩, ⟨"A", "u2"⟩, ⟨"b", "u3"⟩]⟩

/-- Initial state of the session for `snapDup3` with hash `A` known
locally. -/
def sDup3 : SessionState := initSession snapDup3 (CalculateKnownBlocks snapDup3 ["A"])

/-- Snapshot with three blocks, the second of which is known locally:
the scenario of the request-generation claim. -/
def snapScen : SnapshotInfo := ⟨"snapScen", "urlS", [⟨"b1", "u1"⟩, ⟨"b2", "u2"⟩, ⟨"b3", "u3"⟩]⟩

/-- Initial state of the scenario session (block `b2` known locally). -/
def sScen : SessionState := initSession snapScen (CalculateKnownBlocks snapScen ["B2"])

/-- Sixteen-byte payload whose 8-byte little-endian length prefix
declares a dictionary of 2^64 - 6 bytes: the declared length exceeds
the remaining 8 payload bytes, yet `8 + dictSize` wraps modulo 2^64
to 2 and the source's length check passes. -/
def wrapPayload : List (Fin 256) :=
  [250, 255, 255, 255, 255, 255, 255, 255] ++ List.replicate 8 0

/-- Well-formed 8-byte project-blob payload (empty dictionary and
document), used on success paths of examples. -/
def okPayload : List (Fin 256) := List.replicate 8 0

/-- State of the example session after dispatching the project-blob
request. -/
def sDispEx : SessionState := (run sEx [Event.dispatch]).getD sEx

/-- State of the example session after its blob request terminally
failed. -/
def sMidEx : SessionState :=
  (run sEx [Event.dispatch, Event.resolve 0 Resolution.netFailure]).getD sEx

/-- State of the failed example session after a subsequent `Cancel()`. -/
def sCancelEx : SessionState := (run sMidEx [Event.cancel]).getD sEx

/-- Final state of the example session after both requests succeed. -/
def sHappyEx : SessionState :=
  (run sEx [Event.dispatch, Event.dispatch, Event.resolve 1 (Resolution.blockOk true true),
    Event.resolve 0 (Resolution.blobOk okPayload true)]).getD sEx

theorem countP_set_balance {α : Type} (p : α → Bool) (l : List α) (i : Nat) (a : α)
    (hi : i < l.length) :
    (l.set i a).countP p + (if p (l.get ⟨i, hi⟩) then 1 else 0)
      = l.countP p + (if p a then 1 else 0) := by
  induction l generalizing i with
  | nil => simp at hi
  | cons x xs ih =>
    cases i with
    | zero =>
      simp only [List.set_cons_zero, List.countP_cons, List.get]
      omega
    | succ n =>
      have hn : n < xs.length := by simpa using hi
      have hrec := ih n hn
      simp only [List.set_cons_succ, List.countP_cons, List.get]
      omega

theorem countP_two_disjoint_le {α : Type} (p q r : α → Bool) (l : List α)
    (hpr : ∀ x ∈ l, p x = true → r x = true)
    (hqr : ∀ x ∈ l, q x = true → r x = true)
    (hpq : ∀ x ∈ l, ¬(p x = true ∧ q x = true)) :
    l.countP p + l.countP q ≤ l.countP r := by
  induction l with
  | nil => simp
  | cons x xs ih =>
    simp only [List.countP_cons]
    have h1 := hpr x (by simp)
    have h2 := hqr x (by simp)
    have h3 := hpq x (by simp)
    have ih' := ih (fun y hy hp => hpr y (by simp [hy]) hp)
      (fun y hy hq => hqr y (by simp [hy]) hq)
      (fun y hy => hpq y (by simp [hy]))
    cases hp : p x <;> cases hq : q x <;> cases hr : r x <;> simp_all <;> omega

theorem known_mem_remote {snapshot : SnapshotInfo} {localHashes : List String} {x : String}
    (hx : x ∈ CalculateKnownBlocks snapshot localHashes) :
    x ∈ remoteBlockHashes snapshot := by
  have hx' := List.mem_dedup.mp hx
  have := List.mem_filter.mp hx'
  simpa using this.2

theorem known_nodup (snapshot : SnapshotInfo) (localHashes : List String) :
    (CalculateKnownBlocks snapshot localHashes).Nodup :=
  List.nodup_dedup _

theorem known_length_le (snapshot : SnapshotInfo) (localHashes : List String) :
    (CalculateKnownBlocks snapshot localHashes).length
      ≤ (remoteBlockHashes snapshot).countP
          (fun h => (CalculateKnownBlocks snapshot localHashes).contains h) := by
  set known := CalculateKnownBlocks snapshot localHashes with hknown
  have hsub : known ⊆ (remoteBlockHashes snapshot).filter (fun h => known.contains h) := by
    intro x hx
    refine List.mem_filter.mpr ⟨known_mem_remote hx, ?_⟩
    simpa using hx
  have hsp := List.subperm_of_subset (known_nodup snapshot localHashes) hsub
  calc known.length
      ≤ ((remoteBlockHashes snapshot).filter (fun h => known.contains h)).length :=
        hsp.length_le
    _ = (remoteBlockHashes snapshot).countP (fun h => known.contains h) :=
        (List.countP_eq_length_filter _ _).symm

theorem known_length_succ_le (snapshot : SnapshotInfo) (localHashes : List String)
    (h : String) (hmem : h ∈ CalculateKnownBlocks snapshot localHashes)
    (hdup : 2 ≤ (remoteBlockHashes snapshot).count h) :
    (CalculateKnownBlocks snapshot localHashes).length + 1
      ≤ (remoteBlockHashes snapshot).countP
          (fun x => (CalculateKnownBlocks snapshot localHashes).contains x) := by
  set known := CalculateKnownBlocks snapshot localHashes with hknown
  set lf := (remoteBlockHashes snapshot).filter (fun x => known.contains x) with hlf
  have hsubmem : ∀ x ∈ known, x ∈ lf := by
    intro x hx
    refine List.mem_filter.mpr ⟨known_mem_remote hx, ?_⟩
    simpa using hx
  have hsp : List.Subperm (h :: known) lf := by
    refine List.subperm_ext_iff.mpr ?_
    intro x hxmem
    by_cases hxh : x = h
    · subst hxh
      have hk1 : known.count x = 1 :=
        List.count_eq_one_of_mem (known_nodup snapshot localHashes) hmem
      have hlfx : lf.count x = (remoteBlockHashes snapshot).count x := by
        rw [hlf]
        exact List.count_filter (by simpa using hmem)
      have hcnt : (x :: known).count x = 2 := by
        simp [List.count_cons_self, hk1]
      rw [hcnt, hlfx]
      exact hdup
    · have hxk : x ∈ known := by
        rcases List.mem_cons.mp hxmem with h1 | h1
        · exact absurd h1 hxh
        · exact h1
      have hk1 : known.count x = 1 :=
        List.count_eq_one_of_mem (known_nodup snapshot localHashes) hxk
      have hpos : 0 < lf.count x := List.count_pos_iff.mpr (hsubmem x hxk)
      have hne : (h == x) = false := by
        simp only [beq_eq_false_iff_ne, ne_eq]
        intro hcontra
        exact hxh hcontra.symm
      have hcnt : (h :: known).count x = 1 := by
        simp [List.count_cons, hk1, hne]
      rw [hcnt]
      omega
  have hlen := hsp.length_le
  simp only [List.length_cons] at hlen
  calc known.length + 1 ≤ lf.length := hlen
    _ = (remoteBlockHashes snapshot).countP (fun x => known.contains x) :=
      (List.countP_eq_length_filter _ _).symm

theorem init_requests_countP (snapshot : SnapshotInfo) (knownBlocks : List String)
    (p : PendingRequest × ReqStatus → Bool) :
    ((initSession snapshot knownBlocks).requests).countP p
      = (mkRequests snapshot knownBlocks).countP (fun r => p (r, .pending)) := by
  simp [initSession, List.countP_map, Function.comp_def]

theorem init_blockCount (snapshot : SnapshotInfo) (knownBlocks : List String) :
    ((initSession snapshot knownBlocks).requests).countP isBlockPair
      = snapshot.Blocks.countP (fun b => !(knownBlocks.contains (ToUpper b.Hash))) := by
  rw [init_requests_countP]
  simp only [mkRequests, List.countP_cons, isBlockPair, RequestKind.isBlock,
    List.countP_map, Function.comp_def]
  rw [List.countP_eq_length_filter, List.countP_eq_length_filter]
  simp [List.filter_filter]

theorem init_blobOne (snapshot : SnapshotInfo) (knownBlocks : List String) :
    ((initSession snapshot knownBlocks).requests).countP isBlobPair = 1 := by
  rw [init_requests_countP]
  simp only [mkRequests, List.countP_cons, List.countP_map, Function.comp_def]
  have h0 : ((snapshot.Blocks.filter
      (fun b => !(knownBlocks.contains (ToUpper b.Hash)))).countP
        (fun b => isBlobPair (⟨b.Url, .block (ToUpper b.Hash)⟩, .pending))) = 0 := by
    apply List.countP_eq_zero.mpr
    intro b _
    simp [isBlobPair, RequestKind.isBlock]
  simp [isBlobPair, RequestKind.isBlock, h0]

theorem init_blocksLe (snapshot : SnapshotInfo) (localHashes : List String) :
    ((initSession snapshot (CalculateKnownBlocks snapshot localHashes)).requests).countP
        isBlockPair
      ≤ (initSession snapshot (CalculateKnownBlocks snapshot localHashes)).missingBlocks := by
  set known := CalculateKnownBlocks snapshot localHashes with hknown
  rw [init_blockCount]
  have hsplit := List.length_eq_countP_add_countP
    (p := fun b => known.contains (ToUpper b.Hash)) snapshot.Blocks
  have hcong : snapshot.Blocks.countP (fun a => ¬(fun b => known.contains (ToUpper b.Hash)) a)
      = snapshot.Blocks.countP (fun b => !(known.contains (ToUpper b.Hash))) := by
    apply List.countP_congr
    intro x _
    simp
  rw [hcong] at hsplit
  have hmap : snapshot.Blocks.countP (fun b => known.contains (ToUpper b.Hash))
      = (remoteBlockHashes snapshot).countP (fun h => known.contains h) := by
    rw [remoteBlockHashes, List.countP_map]
    rfl
  have hk := known_length_le snapshot localHashes
  rw [← hknown] at hk
  rw [← hmap] at hk
  have hle := List.countP_le_length (p := fun b => known.contains (ToUpper b.Hash))
    (l := snapshot.Blocks)
  show snapshot.Blocks.countP (fun b => !(known.contains (ToUpper b.Hash)))
    ≤ snapshot.Blocks.length - known.length
  omega

theorem init_blocksLt (snapshot : SnapshotInfo) (localHashes : List String)
    (h : String) (hmem : h ∈ CalculateKnownBlocks snapshot localHashes)
    (hdup : 2 ≤ (remoteBlockHashes snapshot).count h) :
    ((initSession snapshot (CalculateKnownBlocks snapshot localHashes)).requests).countP
        isBlockPair
      < (initSession snapshot (CalculateKnownBlocks snapshot localHashes)).missingBlocks := by
  set known := CalculateKnownBlocks snapshot localHashes with hknown
  rw [init_blockCount]
  have hsplit := List.length_eq_countP_add_countP
    (p := fun b => known.contains (ToUpper b.Hash)) snapshot.Blocks
  have hcong : snapshot.Blocks.countP (fun a => ¬(fun b => known.contains (ToUpper b.Hash)) a)
      = snapshot.Blocks.countP (fun b => !(known.contains (ToUpper b.Hash))) := by
    apply List.countP_congr
    intro x _
    simp
  rw [hcong] at hsplit
  have hmap : snapshot.Blocks.countP (fun b => known.contains (ToUpper b.Hash))
      = (remoteBlockHashes snapshot).countP (fun h => known.contains h) := by
    rw [remoteBlockHashes, List.countP_map]
    rfl
  have hk := known_length_succ_le snapshot localHashes h hmem hdup
  rw [← hknown] at hk
  rw [← hmap] at hk
  have hle := List.countP_le_length (p := fun b => known.contains (ToUpper b.Hash))
    (l := snapshot.Blocks)
  show snapshot.Blocks.countP (fun b => !(known.contains (ToUpper b.Hash)))
    < snapshot.Blocks.length - known.length
  omega

theorem goodReport_of_success_false {r : RemoteProjectSnapshotState}
    (h : reportSuccess r = false) : goodReport r := by
  intro htrue
  rw [h] at htrue
  exact absurd htrue (by simp)

theorem goodReport_progressReport (s : SessionState) : goodReport
    { downloadedBlocks := s.downloadedBlocks, missingBlocks := s.missingBlocks,
      error := "", projectBlobDownloaded := s.projectDownloaded,
      completed := s.downloadedBlocks == s.missingBlocks && s.projectDownloaded,
      success := s.downloadedBlocks == s.missingBlocks && s.projectDownloaded,
      cancelled := false } := by
  intro htrue
  simp only [reportSuccess, Bool.and_eq_true, beq_iff_eq] at htrue
  exact ⟨htrue.1, htrue.2, by simp [htrue.1, htrue.2], rfl, rfl⟩

theorem repGood_append {l : List RemoteProjectSnapshotState}
    {x : RemoteProjectSnapshotState} (hl : ∀ r ∈ l, goodReport r)
    (hx : goodReport x) : ∀ r ∈ l ++ [x], goodReport r := by
  intro r hr
  rcases List.mem_append.mp hr with h | h
  · exact hl r h
  · rw [List.mem_singleton] at h
    subst h
    exact hx

theorem invInit (snapshot : SnapshotInfo) (localHashes : List String) :
    SessionInv (initSession snapshot (CalculateKnownBlocks snapshot localHashes)) := by
  set known := CalculateKnownBlocks snapshot localHashes with hknown
  refine ⟨init_blobOne snapshot known, ?_, ?_, ?_, ?_, ?_, ?_, ?_, ?_, ?_, ?_⟩
  · rw [hknown]
    exact init_blocksLe snapshot localHashes
  · show (0 : Nat) = _
    symm
    apply List.countP_eq_zero.mpr
    intro a ha
    simp only [initSession, List.mem_map] at ha
    obtain ⟨r, _, rfl⟩ := ha
    simp [isSuccBlockPair]
  · constructor
    · intro h
      simp [initSession] at h
    · intro h
      rw [List.countP_pos_iff] at h
      obtain ⟨a, ha, hp⟩ := h
      simp only [initSession, List.mem_map] at ha
      obtain ⟨r, _, rfl⟩ := ha
      simp [isSuccBlobPair] at hp
  · constructor
    · intro h
      simp [initSession] at h
    · intro h
      rw [List.countP_pos_iff] at h
      obtain ⟨a, ha, hp⟩ := h
      simp only [initSession, List.mem_map] at ha
      obtain ⟨r, _, rfl⟩ := ha
      simp [isFailedPair] at hp
  · show (0 : Int) ≤ 6
    omega
  · simp [initSession]
  · show _ = _
    have h1 : (initSession snapshot known).reports.countP reportHasError = 0 := by
      simp [initSession]
    have h2 : ((initSession snapshot known).requests).countP isFailedPair = 0 := by
      apply List.countP_eq_zero.mpr
      intro a ha
      simp only [initSession, List.mem_map] at ha
      obtain ⟨r, _, rfl⟩ := ha
      simp [isFailedPair]
    rw [h1, h2]
  · intro h
    simp [initSession] at h
  · intro i j hi hj _ _
    simp [initSession] at hj
  · intro r hr
    simp [initSession] at hr

theorem setStatus_eq (s : SessionState) (i : Nat) {req : PendingRequest} {ost : ReqStatus}
    (nst : ReqStatus) (h : s.requests[i]? = some (req, ost)) :
    setStatus s i nst = { s with requests := s.requests.set i (req, nst) } := by
  simp [setStatus, h]

theorem setStatus_countP (s : SessionState) (i : Nat) {req : PendingRequest}
    {ost : ReqStatus} (nst : ReqStatus) (h : s.requests[i]? = some (req, ost))
    (p : PendingRequest × ReqStatus → Bool) :
    ((setStatus s i nst).requests).countP p + (if p (req, ost) then 1 else 0)
      = s.requests.countP p + (if p (req, nst) then 1 else 0) := by
  obtain ⟨hlt, hget⟩ := List.getElem?_eq_some_iff.mp h
  rw [setStatus_eq s i nst h]
  have hbal := countP_set_balance p s.requests i (req, nst) hlt
  have hgeteq : s.requests.get ⟨i, hlt⟩ = (req, ost) := by
    simpa [List.get_eq_getElem] using hget
  rw [hgeteq] at hbal
  exact hbal

theorem setStatus_countP_same (s : SessionState) (i : Nat) {req : PendingRequest}
    {ost : ReqStatus} (nst : ReqStatus) (h : s.requests[i]? = some (req, ost))
    (p : PendingRequest × ReqStatus → Bool) (hsame : p (req, ost) = p (req, nst)) :
    ((setStatus s i nst).requests).countP p = s.requests.countP p := by
  have := setStatus_countP s i nst h p
  rw [hsame] at this
  omega

theorem setStatus_countP_succ (s : SessionState) (i : Nat) {req : PendingRequest}
    {ost : ReqStatus} (nst : ReqStatus) (h : s.requests[i]? = some (req, ost))
    (p : PendingRequest × ReqStatus → Bool) (ho : p (req, ost) = false)
    (hn : p (req, nst) = true) :
    ((setStatus s i nst).requests).countP p = s.requests.countP p + 1 := by
  have := setStatus_countP s i nst h p
  rw [ho, hn] at this
  simp at this
  omega

theorem setStatus_scalars (s : SessionState) (i : Nat) (st : ReqStatus) :
    (setStatus s i st).nextRequestIndex = s.nextRequestIndex ∧
    (setStatus s i st).requestsInProgress = s.requestsInProgress ∧
    (setStatus s i st).downloadedBlocks = s.downloadedBlocks ∧
    (setStatus s i st).missingBlocks = s.missingBlocks ∧
    (setStatus s i st).projectDownloaded = s.projectDownloaded ∧
    (setStatus s i st).failed = s.failed ∧
    (setStatus s i st).cancelled = s.cancelled ∧
    (setStatus s i st).reports = s.reports ∧
    (setStatus s i st).projectRecord = s.projectRecord := by
  unfold setStatus
  split <;> simp

theorem doCancel_countP (s : SessionState) (p : PendingRequest × ReqStatus → Bool)
    (hp : ∀ q b b', p (q, .inFlight b) = p (q, .inFlight b')) :
    ((DoCancel s).requests).countP p = s.requests.countP p := by
  unfold DoCancel
  simp only [List.countP_map]
  apply List.countP_congr
  intro x _
  obtain ⟨q, st⟩ := x
  cases st with
  | inFlight b => simpa using (hp q true b)
  | pending => simp
  | succeeded => simp
  | failedReq => simp
  | abortedReq => simp

theorem get_mem_countP_pos {α : Type} (p : α → Bool) (l : List α) (i : Nat)
    (hi : i < l.length) (hp : p (l.get ⟨i, hi⟩) = true) : 0 < l.countP p :=
  List.countP_pos_iff.mpr ⟨l.get ⟨i, hi⟩, l.get_mem i hi, hp⟩

theorem cancOrd_append (reports : List RemoteProjectSnapshotState)
    (r : RemoteProjectSnapshotState)
    (hOld : ∀ i j, (hi : i < reports.length) → (hj : j < reports.length) → i < j →
      (reports.get ⟨i, hi⟩).cancelled = true → (reports.get ⟨j, hj⟩).success = false)
    (hNew : (∃ i, ∃ hi : i < reports.length, (reports.get ⟨i, hi⟩).cancelled = true) →
      r.success = false) :
    ∀ i j, (hi : i < (reports ++ [r]).length) → (hj : j < (reports ++ [r]).length) →
      i < j → ((reports ++ [r]).get ⟨i, hi⟩).cancelled = true →
      ((reports ++ [r]).get ⟨j, hj⟩).success = false := by
  intro i j hi hj hij hc
  have hlen : (reports ++ [r]).length = reports.length + 1 := by simp
  have hi' : i < reports.length := by
    have := hlen ▸ hj
    omega
  have hgi : (reports ++ [r]).get ⟨i, hi⟩ = reports.get ⟨i, hi'⟩ := by
    simp [List.get_eq_getElem, List.getElem_append_left hi']
  by_cases hjl : j < reports.length
  · have hgj : (reports ++ [r]).get ⟨j, hj⟩ = reports.get ⟨j, hjl⟩ := by
      simp [List.get_eq_getElem, List.getElem_append_left hjl]
    rw [hgj]
    exact hOld i j hi' hjl hij (hgi ▸ hc)
  · have hje : j = reports.length := by
      have := hlen ▸ hj
      omega
    have hgj : (reports ++ [r]).get ⟨j, hj⟩ = r := by
      subst hje
      simp [List.get_eq_getElem, List.getElem_append_right (Nat.le_refl _)]
    rw [hgj]
    exact hNew ⟨i, hi', hgi ▸ hc⟩

@[simp] theorem appendReport_requests (s : SessionState) (r : RemoteProjectSnapshotState) :
    (appendReport s r).requests = s.requests := rfl

@[simp] theorem appendReport_reports (s : SessionState) (r : RemoteProjectSnapshotState) :
    (appendReport s r).reports = s.reports ++ [r] := rfl

@[simp] theorem appendReport_downloadedBlocks (s : SessionState) (r : RemoteProjectSnapshotState) :
    (appendReport s r).downloadedBlocks = s.downloadedBlocks := rfl

@[simp] theorem appendReport_missingBlocks (s : SessionState) (r : RemoteProjectSnapshotState) :
    (appendReport s r).missingBlocks = s.missingBlocks := rfl

@[simp] theorem appendReport_projectDownloaded (s : SessionState) (r : RemoteProjectSnapshotState) :
    (appendReport s r).projectDownloaded = s.projectDownloaded := rfl

@[simp] theorem appendReport_failed (s : SessionState) (r : RemoteProjectSnapshotState) :
    (appendReport s r).failed = s.failed := rfl

@[simp] theorem appendReport_cancelled (s : SessionState) (r : RemoteProjectSnapshotState) :
    (appendReport s r).cancelled = s.cancelled := rfl

@[simp] theorem appendReport_requestsInProgress (s : SessionState) (r : RemoteProjectSnapshotState) :
    (appendReport s r).requestsInProgress = s.requestsInProgress := rfl

@[simp] theorem appendReport_projectRecord (s : SessionState) (r : RemoteProjectSnapshotState) :
    (appendReport s r).projectRecord = s.projectRecord := rfl

@[simp] theorem RemoveRequest_requests (s : SessionState) :
    (RemoveRequest s).requests = s.requests := rfl

@[simp] theorem RemoveRequest_reports (s : SessionState) :
    (RemoveRequest s).reports = s.reports := rfl

@[simp] theorem RemoveRequest_downloadedBlocks (s : SessionState) :
    (RemoveRequest s).downloadedBlocks = s.downloadedBlocks := rfl

@[simp] theorem RemoveRequest_missingBlocks (s : SessionState) :
    (RemoveRequest s).missingBlocks = s.missingBlocks := rfl

@[simp] theorem RemoveRequest_projectDownloaded (s : SessionState) :
    (RemoveRequest s).projectDownloaded = s.projectDownloaded := rfl

@[simp] theorem RemoveRequest_failed (s : SessionState) :
    (RemoveRequest s).failed = s.failed := rfl

@[simp] theorem RemoveRequest_cancelled (s : SessionState) :
    (RemoveRequest s).cancelled = s.cancelled := rfl

@[simp] theorem RemoveRequest_requestsInProgress (s : SessionState) :
    (RemoveRequest s).requestsInProgress = s.requestsInProgress - 1 := rfl

@[simp] theorem RemoveRequest_projectRecord (s : SessionState) :
    (RemoveRequest s).projectRecord = s.projectRecord := rfl

@[simp] theorem setStatus_nextRequestIndex (s : SessionState) (i : Nat) (st : ReqStatus) :
    (setStatus s i st).nextRequestIndex = s.nextRequestIndex :=
  (setStatus_scalars s i st).1

@[simp] theorem setStatus_requestsInProgress (s : SessionState) (i : Nat) (st : ReqStatus) :
    (setStatus s i st).requestsInProgress = s.requestsInProgress :=
  (setStatus_scalars s i st).2.1

@[simp] theorem setStatus_downloadedBlocks (s : SessionState) (i : Nat) (st : ReqStatus) :
    (setStatus s i st).downloadedBlocks = s.downloadedBlocks :=
  (setStatus_scalars s i st).2.2.1

@[simp] theorem setStatus_missingBlocks (s : SessionState) (i : Nat) (st : ReqStatus) :
    (setStatus s i st).missingBlocks = s.missingBlocks :=
  (setStatus_scalars s i st).2.2.2.1

@[simp] theorem setStatus_projectDownloaded (s : SessionState) (i : Nat) (st : ReqStatus) :
    (setStatus s i st).projectDownloaded = s.projectDownloaded :=
  (setStatus_scalars s i st).2.2.2.2.1

@[simp] theorem setStatus_failed (s : SessionState) (i : Nat) (st : ReqStatus) :
    (setStatus s i st).failed = s.failed :=
  (setStatus_scalars s i st).2.2.2.2.2.1

@[simp] theorem setStatus_cancelled (s : SessionState) (i : Nat) (st : ReqStatus) :
    (setStatus s i st).cancelled = s.cancelled :=
  (setStatus_scalars s i st).2.2.2.2.2.2.1

@[simp] theorem setStatus_reports (s : SessionState) (i : Nat) (st : ReqStatus) :
    (setStatus s i st).reports = s.reports :=
  (setStatus_scalars s i st).2.2.2.2.2.2.2.1

@[simp] theorem setStatus_projectRecord (s : SessionState) (i : Nat) (st : ReqStatus) :
    (setStatus s i st).projectRecord = s.projectRecord :=
  (setStatus_scalars s i st).2.2.2.2.2.2.2.2

@[simp] theorem DoCancel_cancelled (s : SessionState) : (DoCancel s).cancelled = true := rfl

@[simp] theorem DoCancel_failed (s : SessionState) : (DoCancel s).failed = s.failed := rfl

@[simp] theorem DoCancel_downloadedBlocks (s : SessionState) :
    (DoCancel s).downloadedBlocks = s.downloadedBlocks := rfl

@[simp] theorem DoCancel_missingBlocks (s : SessionState) :
    (DoCancel s).missingBlocks = s.missingBlocks := rfl

@[simp] theorem DoCancel_projectDownloaded (s : SessionState) :
    (DoCancel s).projectDownloaded = s.projectDownloaded := rfl

@[simp] theorem DoCancel_reports (s : SessionState) : (DoCancel s).reports = s.reports := rfl

@[simp] theorem DoCancel_requestsInProgress (s : SessionState) :
    (DoCancel s).requestsInProgress = s.requestsInProgress := rfl

@[simp] theorem DoCancel_projectRecord (s : SessionState) :
    (DoCancel s).projectRecord = s.projectRecord := rfl

@[simp] theorem DoCancel_nextRequestIndex (s : SessionState) :
    (DoCancel s).nextRequestIndex = s.nextRequestIndex := rfl

theorem invRemoveRequest {s : SessionState} (hInv : SessionInv s) :
    SessionInv (RemoveRequest s) :=
  ⟨hInv.blobOne, hInv.blocksLe, hInv.dEq, hInv.pdIff, hInv.failedIff,
    by show s.requestsInProgress - 1 ≤ 6; have := hInv.inProg; omega,
    hInv.succLe, hInv.errEq, hInv.cancRep, hInv.cancOrd, hInv.repGood⟩

theorem invReportProgress {s : SessionState} (hInv : SessionInv s)
    (hz : s.reports.countP reportSuccess = 0) : SessionInv (ReportProgress s) := by
  unfold ReportProgress
  split
  · exact hInv
  · next hc =>
    refine ⟨hInv.blobOne, hInv.blocksLe, hInv.dEq, hInv.pdIff, hInv.failedIff,
      hInv.inProg, ?_, ?_, ?_, ?_, ?_⟩
    · show (s.reports ++ [_]).countP reportSuccess ≤ _
      rw [List.countP_append, hz, List.countP_singleton]
      by_cases hv : (s.downloadedBlocks == s.missingBlocks && s.projectDownloaded) = true
      · have hd : s.downloadedBlocks = s.missingBlocks ∧ s.projectDownloaded = true := by
          simpa using hv
        simp [reportSuccess, hv, hd]
      · simp [reportSuccess, hv]
    · show (s.reports ++ [_]).countP reportHasError = _
      rw [List.countP_append, List.countP_singleton]
      have : reportHasError
          { downloadedBlocks := s.downloadedBlocks, missingBlocks := s.missingBlocks,
            error := "", projectBlobDownloaded := s.projectDownloaded,
            completed := s.downloadedBlocks == s.missingBlocks && s.projectDownloaded,
            success := s.downloadedBlocks == s.missingBlocks && s.projectDownloaded,
            cancelled := false } = false := by
        simp [reportHasError]
      rw [this]
      simpa using hInv.errEq
    · show 0 < (s.reports ++ [_]).countP reportCancelled → _
      rw [List.countP_append, List.countP_singleton]
      intro hpos
      apply hInv.cancRep
      have : reportCancelled
          { downloadedBlocks := s.downloadedBlocks, missingBlocks := s.missingBlocks,
            error := "", projectBlobDownloaded := s.projectDownloaded,
            completed := s.downloadedBlocks == s.missingBlocks && s.projectDownloaded,
            success := s.downloadedBlocks == s.missingBlocks && s.projectDownloaded,
            cancelled := false } = false := by
        simp [reportCancelled]
      rw [this] at hpos
      simpa using hpos
    · apply cancOrd_append
      · exact hInv.cancOrd
      · intro hex
        obtain ⟨i, hi, hci⟩ := hex
        have := hInv.cancRep (get_mem_countP_pos reportCancelled s.reports i hi hci)
        exact absurd this hc
    · exact repGood_append hInv.repGood (goodReport_progressReport s)

@[simp] theorem failureReport_success (s : SessionState) (err : String) :
    reportSuccess (failureReport s err) = false := rfl

@[simp] theorem failureReport_hasError (s : SessionState) (err : String) :
    reportHasError (failureReport s err) = (err != "") := rfl

@[simp] theorem failureReport_cancelled (s : SessionState) (err : String) :
    reportCancelled (failureReport s err) = false := rfl

@[simp] theorem cancelReport_success (s : SessionState) :
    reportSuccess (cancelReport s) = false := rfl

@[simp] theorem cancelReport_hasError (s : SessionState) :
    reportHasError (cancelReport s) = false := rfl

@[simp] theorem cancelReport_cancelled (s : SessionState) :
    reportCancelled (cancelReport s) = true := rfl

@[simp] theorem OnFailure_requests (s : SessionState) (i : Nat) (err : String) :
    (OnFailure s i err).requests = (setStatus s i .failedReq).requests := rfl

@[simp] theorem OnFailure_downloadedBlocks (s : SessionState) (i : Nat) (err : String) :
    (OnFailure s i err).downloadedBlocks = s.downloadedBlocks := by
  show (setStatus s i ReqStatus.failedReq).downloadedBlocks = _
  rw [setStatus_downloadedBlocks]

@[simp] theorem OnFailure_missingBlocks (s : SessionState) (i : Nat) (err : String) :
    (OnFailure s i err).missingBlocks = s.missingBlocks := by
  show (setStatus s i ReqStatus.failedReq).missingBlocks = _
  rw [setStatus_missingBlocks]

@[simp] theorem OnFailure_projectDownloaded (s : SessionState) (i : Nat) (err : String) :
    (OnFailure s i err).projectDownloaded = s.projectDownloaded := by
  show (setStatus s i ReqStatus.failedReq).projectDownloaded = _
  rw [setStatus_projectDownloaded]

@[simp] theorem OnFailure_failed (s : SessionState) (i : Nat) (err : String) :
    (OnFailure s i err).failed = true := rfl

@[simp] theorem OnFailure_cancelled (s : SessionState) (i : Nat) (err : String) :
    (OnFailure s i err).cancelled = s.cancelled := by
  show (setStatus s i ReqStatus.failedReq).cancelled = _
  rw [setStatus_cancelled]

@[simp] theorem OnFailure_requestsInProgress (s : SessionState) (i : Nat) (err : String) :
    (OnFailure s i err).requestsInProgress = s.requestsInProgress - 1 := by
  show (setStatus s i ReqStatus.failedReq).requestsInProgress - 1 = _
  rw [setStatus_requestsInProgress]

@[simp] theorem OnFailure_projectRecord (s : SessionState) (i : Nat) (err : String) :
    (OnFailure s i err).projectRecord = s.projectRecord := by
  show (setStatus s i ReqStatus.failedReq).projectRecord = _
  rw [setStatus_projectRecord]

theorem OnFailure_reports (s : SessionState) (i : Nat) (err : String) :
    (OnFailure s i err).reports = s.reports ++
      [failureReport { RemoveRequest (setStatus s i .failedReq) with failed := true } err] := by
  show (setStatus s i ReqStatus.failedReq).reports ++ _ = _
  rw [setStatus_reports]

theorem invOnFailure {s : SessionState} {i : Nat} {req : PendingRequest} {b : Bool}
    (hInv : SessionInv s) (h : s.requests[i]? = some (req, .inFlight b))
    (err : String) (herr : (err != "") = true) :
    SessionInv (OnFailure s i err) := by
  have cBlob := setStatus_countP_same s i .failedReq h isBlobPair (by cases b <;> rfl)
  have cBlock := setStatus_countP_same s i .failedReq h isBlockPair (by cases b <;> rfl)
  have cSB := setStatus_countP_same s i .failedReq h isSuccBlockPair (by cases b <;> rfl)
  have cSBlob := setStatus_countP_same s i .failedReq h isSuccBlobPair (by cases b <;> rfl)
  have cFail := setStatus_countP_succ s i .failedReq h isFailedPair
    (by cases b <;> rfl) (by rfl)
  refine ⟨?_, ?_, ?_, ?_, ?_, ?_, ?_, ?_, ?_, ?_, ?_⟩
  · rw [OnFailure_requests, cBlob]
    exact hInv.blobOne
  · rw [OnFailure_requests, OnFailure_missingBlocks, cBlock]
    exact hInv.blocksLe
  · rw [OnFailure_requests, OnFailure_downloadedBlocks, cSB]
    exact hInv.dEq
  · rw [OnFailure_requests, OnFailure_projectDownloaded, cSBlob]
    exact hInv.pdIff
  · rw [OnFailure_requests, OnFailure_failed, cFail]
    simp
  · rw [OnFailure_requestsInProgress]
    have := hInv.inProg
    omega
  · rw [OnFailure_reports, OnFailure_downloadedBlocks, OnFailure_missingBlocks,
      OnFailure_projectDownloaded, List.countP_append, List.countP_singleton]
    simp only [failureReport_success]
    have := hInv.succLe
    simpa using this
  · rw [OnFailure_reports, OnFailure_requests, List.countP_append, List.countP_singleton,
      cFail]
    simp only [failureReport_hasError, herr]
    have := hInv.errEq
    simp
    omega
  · rw [OnFailure_reports, OnFailure_cancelled, List.countP_append, List.countP_singleton]
    simp only [failureReport_cancelled]
    intro hpos
    exact hInv.cancRep (by simpa using hpos)
  · have hre := OnFailure_reports s i err
    rw [hre]
    exact cancOrd_append s.reports _ hInv.cancOrd (fun _ => rfl)
  · have hre := OnFailure_reports s i err
    rw [hre]
    exact repGood_append hInv.repGood (goodReport_of_success_false (failureReport_success _ _))

@[simp] theorem Cancel_requests (s : SessionState) :
    (Cancel s).requests = (DoCancel s).requests := rfl

@[simp] theorem Cancel_reports (s : SessionState) :
    (Cancel s).reports = s.reports ++ [cancelReport (DoCancel s)] := rfl

@[simp] theorem Cancel_downloadedBlocks (s : SessionState) :
    (Cancel s).downloadedBlocks = s.downloadedBlocks := rfl

@[simp] theorem Cancel_missingBlocks (s : SessionState) :
    (Cancel s).missingBlocks = s.missingBlocks := rfl

@[simp] theorem Cancel_projectDownloaded (s : SessionState) :
    (Cancel s).projectDownloaded = s.projectDownloaded := rfl

@[simp] theorem Cancel_failed (s : SessionState) : (Cancel s).failed = s.failed := rfl

@[simp] theorem Cancel_cancelled (s : SessionState) : (Cancel s).cancelled = true := rfl

@[simp] theorem Cancel_requestsInProgress (s : SessionState) :
    (Cancel s).requestsInProgress = s.requestsInProgress := rfl

@[simp] theorem Cancel_projectRecord (s : SessionState) :
    (Cancel s).projectRecord = s.projectRecord := rfl

theorem invCancel {s : SessionState} (hInv : SessionInv s) : SessionInv (Cancel s) := by
  have cBlob := doCancel_countP s isBlobPair (by intro q b b'; rfl)
  have cBlock := doCancel_countP s isBlockPair (by intro q b b'; rfl)
  have cSB := doCancel_countP s isSuccBlockPair (by intro q b b'; cases b <;> cases b' <;> rfl)
  have cSBlob := doCancel_countP s isSuccBlobPair (by intro q b b'; cases b <;> cases b' <;> rfl)
  have cFail := doCancel_countP s isFailedPair (by intro q b b'; cases b <;> cases b' <;> rfl)
  refine ⟨?_, ?_, ?_, ?_, ?_, ?_, ?_, ?_, ?_, ?_, ?_⟩
  · rw [Cancel_requests, cBlob]
    exact hInv.blobOne
  · rw [Cancel_requests, Cancel_missingBlocks, cBlock]
    exact hInv.blocksLe
  · rw [Cancel_requests, Cancel_downloadedBlocks, cSB]
    exact hInv.dEq
  · rw [Cancel_requests, Cancel_projectDownloaded, cSBlob]
    exact hInv.pdIff
  · rw [Cancel_requests, Cancel_failed, cFail]
    exact hInv.failedIff
  · rw [Cancel_requestsInProgress]
    exact hInv.inProg
  · rw [Cancel_reports, Cancel_downloadedBlocks, Cancel_missingBlocks,
      Cancel_projectDownloaded, List.countP_append, List.countP_singleton]
    simp only [cancelReport_success]
    have := hInv.succLe
    simpa using this
  · rw [Cancel_reports, Cancel_requests, List.countP_append, List.countP_singleton, cFail]
    simp only [cancelReport_hasError]
    have := hInv.errEq
    simpa using this
  · intro _
    rw [Cancel_cancelled]
  · rw [Cancel_reports]
    exact cancOrd_append s.reports _ hInv.cancOrd (fun _ => rfl)
  · rw [Cancel_reports]
    exact repGood_append hInv.repGood (goodReport_of_success_false (cancelReport_success _))

theorem invAborted {s : SessionState} {i : Nat} {req : PendingRequest} {b : Bool}
    (hInv : SessionInv s) (h : s.requests[i]? = some (req, .inFlight b)) :
    SessionInv (RemoveRequest (setStatus s i .abortedReq)) := by
  have cBlob := setStatus_countP_same s i .abortedReq h isBlobPair (by cases b <;> rfl)
  have cBlock := setStatus_countP_same s i .abortedReq h isBlockPair (by cases b <;> rfl)
  have cSB := setStatus_countP_same s i .abortedReq h isSuccBlockPair (by cases b <;> rfl)
  have cSBlob := setStatus_countP_same s i .abortedReq h isSuccBlobPair (by cases b <;> rfl)
  have cFail := setStatus_countP_same s i .abortedReq h isFailedPair (by cases b <;> rfl)
  refine ⟨?_, ?_, ?_, ?_, ?_, ?_, ?_, ?_, ?_, ?_, ?_⟩
  · rw [RemoveRequest_requests, cBlob]
    exact hInv.blobOne
  · rw [RemoveRequest_requests, RemoveRequest_missingBlocks, setStatus_missingBlocks, cBlock]
    exact hInv.blocksLe
  · rw [RemoveRequest_requests, RemoveRequest_downloadedBlocks, setStatus_downloadedBlocks,
      cSB]
    exact hInv.dEq
  · rw [RemoveRequest_requests, RemoveRequest_projectDownloaded, setStatus_projectDownloaded,
      cSBlob]
    exact hInv.pdIff
  · rw [RemoveRequest_requests, RemoveRequest_failed, setStatus_failed, cFail]
    exact hInv.failedIff
  · rw [RemoveRequest_requestsInProgress, setStatus_requestsInProgress]
    have := hInv.inProg
    omega
  · rw [RemoveRequest_reports, setStatus_reports, RemoveRequest_downloadedBlocks,
      setStatus_downloadedBlocks, RemoveRequest_missingBlocks, setStatus_missingBlocks,
      RemoveRequest_projectDownloaded, setStatus_projectDownloaded]
    exact hInv.succLe
  · rw [RemoveRequest_reports, setStatus_reports, RemoveRequest_requests, cFail]
    exact hInv.errEq
  · rw [RemoveRequest_reports, setStatus_reports, RemoveRequest_cancelled, setStatus_cancelled]
    exact hInv.cancRep
  · rw [RemoveRequest_reports, setStatus_reports]
    exact hInv.cancOrd
  · rw [RemoveRequest_reports, setStatus_reports]
    exact hInv.repGood

theorem invDispatch {s : SessionState} {req : PendingRequest}
    (hInv : SessionInv s) (h : s.requests[s.nextRequestIndex]? = some (req, .pending))
    (hlt : s.requestsInProgress < 6) :
    SessionInv { setStatus s s.nextRequestIndex (.inFlight false) with
                 nextRequestIndex := s.nextRequestIndex + 1,
                 requestsInProgress := s.requestsInProgress + 1 } := by
  have cBlob := setStatus_countP_same s s.nextRequestIndex (.inFlight false) h
    isBlobPair (by rfl)
  have cBlock := setStatus_countP_same s s.nextRequestIndex (.inFlight false) h
    isBlockPair (by rfl)
  have cSB := setStatus_countP_same s s.nextRequestIndex (.inFlight false) h
    isSuccBlockPair (by rfl)
  have cSBlob := setStatus_countP_same s s.nextRequestIndex (.inFlight false) h
    isSuccBlobPair (by rfl)
  have cFail := setStatus_countP_same s s.nextRequestIndex (.inFlight false) h
    isFailedPair (by rfl)
  refine ⟨?_, ?_, ?_, ?_, ?_, ?_, ?_, ?_, ?_, ?_, ?_⟩
  · show ((setStatus s s.nextRequestIndex (.inFlight false)).requests).countP isBlobPair = 1
    rw [cBlob]
    exact hInv.blobOne
  · show ((setStatus s s.nextRequestIndex (.inFlight false)).requests).countP isBlockPair
      ≤ (setStatus s s.nextRequestIndex (.inFlight false)).missingBlocks
    rw [cBlock, setStatus_missingBlocks]
    exact hInv.blocksLe
  · show (setStatus s s.nextRequestIndex (.inFlight false)).downloadedBlocks
      = ((setStatus s s.nextRequestIndex (.inFlight false)).requests).countP isSuccBlockPair
    rw [cSB, setStatus_downloadedBlocks]
    exact hInv.dEq
  · show (setStatus s s.nextRequestIndex (.inFlight false)).projectDownloaded = true
      ↔ 0 < ((setStatus s s.nextRequestIndex (.inFlight false)).requests).countP isSuccBlobPair
    rw [cSBlob, setStatus_projectDownloaded]
    exact hInv.pdIff
  · show (setStatus s s.nextRequestIndex (.inFlight false)).failed = true
      ↔ 0 < ((setStatus s s.nextRequestIndex (.inFlight false)).requests).countP isFailedPair
    rw [cFail, setStatus_failed]
    exact hInv.failedIff
  · show s.requestsInProgress + 1 ≤ 6
    omega
  · show ((setStatus s s.nextRequestIndex (.inFlight false)).reports).countP reportSuccess ≤ _
    rw [setStatus_reports]
    have := hInv.succLe
    simp only [setStatus_downloadedBlocks, setStatus_missingBlocks,
      setStatus_projectDownloaded]
    exact this
  · show ((setStatus s s.nextRequestIndex (.inFlight false)).reports).countP reportHasError
      = ((setStatus s s.nextRequestIndex (.inFlight false)).requests).countP isFailedPair
    rw [setStatus_reports, cFail]
    exact hInv.errEq
  · show 0 < ((setStatus s s.nextRequestIndex (.inFlight false)).reports).countP
        reportCancelled →
      (setStatus s s.nextRequestIndex (.inFlight false)).cancelled = true
    rw [setStatus_reports, setStatus_cancelled]
    exact hInv.cancRep
  · show ∀ j k, (hj : j < ((setStatus s s.nextRequestIndex (.inFlight false)).reports).length)
      → (hk : k < ((setStatus s s.nextRequestIndex (.inFlight false)).reports).length)
      → j < k
      → (((setStatus s s.nextRequestIndex (.inFlight false)).reports).get ⟨j, hj⟩).cancelled
          = true
      → (((setStatus s s.nextRequestIndex (.inFlight false)).reports).get ⟨k, hk⟩).success
          = false
    rw [setStatus_reports]
    exact hInv.cancOrd
  · show ∀ r ∈ ((setStatus s s.nextRequestIndex (.inFlight false)).reports), goodReport r
    rw [setStatus_reports]
    exact hInv.repGood

theorem mem_of_lookup {s : SessionState} {i : Nat} {pr : PendingRequest × ReqStatus}
    (h : s.requests[i]? = some pr) : pr ∈ s.requests := by
  obtain ⟨hlt, hg⟩ := List.getElem?_eq_some_iff.mp h
  rw [← hg]
  exact List.getElem_mem hlt

theorem blob_not_downloaded {s : SessionState} {i : Nat} {req : PendingRequest} {b : Bool}
    (hInv : SessionInv s) (h : s.requests[i]? = some (req, .inFlight b))
    (hk : req.kind = .projectBlob) : s.projectDownloaded = false := by
  have hmem : (req, ReqStatus.inFlight b) ∈ s.requests := mem_of_lookup h
  have hq : 0 < s.requests.countP
      (fun p => (!(p.2 == ReqStatus.succeeded)) && !(p.1.kind.isBlock)) :=
    List.countP_pos_iff.mpr ⟨(req, .inFlight b), hmem,
      by cases b <;> simp [hk, RequestKind.isBlock]⟩
  have hdisj := countP_two_disjoint_le isSuccBlobPair
    (fun p => (!(p.2 == ReqStatus.succeeded)) && !(p.1.kind.isBlock)) isBlobPair
    s.requests
    (by
      intro x _ hx
      simp only [isSuccBlobPair, Bool.and_eq_true] at hx
      simp [isBlobPair, hx.2])
    (by
      intro x _ hx
      simp only [Bool.and_eq_true] at hx
      simp [isBlobPair, hx.2])
    (by
      intro x _ hx
      obtain ⟨h1, h2⟩ := hx
      simp only [isSuccBlobPair, Bool.and_eq_true] at h1
      simp only [Bool.and_eq_true, Bool.not_eq_true'] at h2
      rw [h1.1] at h2
      simp at h2)
  have hone := hInv.blobOne
  have hzero : s.requests.countP isSuccBlobPair = 0 := by omega
  by_cases hpd : s.projectDownloaded = true
  · have := hInv.pdIff.mp hpd
    omega
  · simpa using hpd

theorem no_success_reports_of_not_complete {s : SessionState} (hInv : SessionInv s)
    (hnc : ¬(s.downloadedBlocks = s.missingBlocks ∧ s.projectDownloaded = true)) :
    s.reports.countP reportSuccess = 0 := by
  have := hInv.succLe
  rw [if_neg hnc] at this
  omega

theorem invOnProjectBlobDownloaded {s : SessionState} {i : Nat} {req : PendingRequest}
    {b : Bool} (hInv : SessionInv s) (h : s.requests[i]? = some (req, .inFlight b))
    (hk : req.kind = .projectBlob) (data : List (Fin 256)) (commitOk : Bool) :
    SessionInv (OnProjectBlobDownloaded s i data commitOk) := by
  have hpdF := blob_not_downloaded hInv h hk
  have hz : s.reports.countP reportSuccess = 0 := by
    apply no_success_reports_of_not_complete hInv
    intro hcon
    rw [hpdF] at hcon
    simp at hcon
  unfold OnProjectBlobDownloaded
  cases hp : parseProjectBlob data with
  | none =>
    exact invRemoveRequest (invOnFailure hInv h _ (by decide))
  | some record =>
    cases commitOk with
    | false =>
      exact invRemoveRequest (invOnFailure hInv h _ (by decide))
    | true =>
      have hM : ({ s with projectRecord := some record, projectDownloaded := true } : SessionState).requests[i]? = some (req, .inFlight b) := h
      have cBlob := setStatus_countP_same _ i .succeeded hM isBlobPair (by cases b <;> rfl)
      have cBlock := setStatus_countP_same _ i .succeeded hM isBlockPair (by cases b <;> rfl)
      have cSB := setStatus_countP_same _ i .succeeded hM isSuccBlockPair
        (by cases b <;> simp [isSuccBlockPair, hk, RequestKind.isBlock])
      have dBlob := setStatus_countP_succ _ i .succeeded hM isSuccBlobPair
        (by cases b <;> rfl) (by simp [isSuccBlobPair, hk, RequestKind.isBlock])
      have cFail := setStatus_countP_same _ i .succeeded hM isFailedPair (by cases b <;> rfl)
      have hz1 : ((setStatus { s with projectRecord := some record, projectDownloaded := true } i ReqStatus.succeeded).reports).countP reportSuccess = 0 := by
        rw [setStatus_reports]
        exact hz
      have hInv1 : SessionInv (setStatus { s with projectRecord := some record, projectDownloaded := true } i ReqStatus.succeeded) := by
        refine ⟨?_, ?_, ?_, ?_, ?_, ?_, ?_, ?_, ?_, ?_, ?_⟩
        · rw [cBlob]
          exact hInv.blobOne
        · rw [cBlock, setStatus_missingBlocks]
          exact hInv.blocksLe
        · rw [setStatus_downloadedBlocks, cSB]
          exact hInv.dEq
        · rw [setStatus_projectDownloaded, dBlob]
          constructor
          · intro
            omega
          · intro
            rfl
        · rw [setStatus_failed, cFail]
          exact hInv.failedIff
        · rw [setStatus_requestsInProgress]
          exact hInv.inProg
        · rw [hz1]
          exact Nat.zero_le _
        · rw [setStatus_reports, cFail]
          exact hInv.errEq
        · rw [setStatus_reports, setStatus_cancelled]
          exact hInv.cancRep
        · rw [setStatus_reports]
          exact hInv.cancOrd
        · rw [setStatus_reports]
          exact hInv.repGood
      exact invRemoveRequest (invReportProgress hInv1 hz1)

theorem block_downloaded_lt {s : SessionState} {i : Nat} {req : PendingRequest} {b : Bool}
    (hInv : SessionInv s) (h : s.requests[i]? = some (req, .inFlight b))
    (hk : req.kind.isBlock = true) : s.downloadedBlocks < s.missingBlocks := by
  have hmem : (req, ReqStatus.inFlight b) ∈ s.requests := mem_of_lookup h
  have hq : 0 < s.requests.countP
      (fun p => (p.2 == ReqStatus.inFlight b) && p.1.kind.isBlock) :=
    List.countP_pos_iff.mpr ⟨(req, .inFlight b), hmem, by simp [hk]⟩
  have hdisj := countP_two_disjoint_le isSuccBlockPair
    (fun p => (p.2 == ReqStatus.inFlight b) && p.1.kind.isBlock) isBlockPair
    s.requests
    (by
      intro x _ hx
      simp only [isSuccBlockPair, Bool.and_eq_true] at hx
      simp [isBlockPair, hx.2])
    (by
      intro x _ hx
      simp only [Bool.and_eq_true] at hx
      simp [isBlockPair, hx.2])
    (by
      intro x _ hx
      obtain ⟨h1, h2⟩ := hx
      simp only [isSuccBlockPair, Bool.and_eq_true, beq_iff_eq] at h1 h2
      rw [h1.1] at h2
      simp at h2)
  have hble := hInv.blocksLe
  have hd := hInv.dEq
  omega

theorem invOnBlockDownloaded {s : SessionState} {i : Nat} {req : PendingRequest}
    {b : Bool} (hInv : SessionInv s) (h : s.requests[i]? = some (req, .inFlight b))
    (hk : req.kind.isBlock = true) (decodeOk commitOk : Bool) :
    SessionInv (OnBlockDownloaded s i decodeOk commitOk) := by
  have hlt := block_downloaded_lt hInv h hk
  have hz : s.reports.countP reportSuccess = 0 := by
    apply no_success_reports_of_not_complete hInv
    intro hcon
    omega
  unfold OnBlockDownloaded
  cases decodeOk with
  | false =>
    exact invRemoveRequest (invOnFailure hInv h _ (by decide))
  | true =>
    cases commitOk with
    | false =>
      exact invRemoveRequest (invOnFailure hInv h _ (by decide))
    | true =>
      have hM : ({ s with downloadedBlocks := s.downloadedBlocks + 1 }
          : SessionState).requests[i]? = some (req, .inFlight b) := h
      have cBlob := setStatus_countP_same _ i .succeeded hM isBlobPair (by cases b <;> rfl)
      have cBlock := setStatus_countP_same _ i .succeeded hM isBlockPair (by cases b <;> rfl)
      have dSB := setStatus_countP_succ _ i .succeeded hM isSuccBlockPair
        (by cases b <;> rfl) (by simp [isSuccBlockPair, hk])
      have cSBlob := setStatus_countP_same _ i .succeeded hM isSuccBlobPair
        (by cases b <;> simp [isSuccBlobPair, hk])
      have cFail := setStatus_countP_same _ i .succeeded hM isFailedPair (by cases b <;> rfl)
      have hz1 : ((setStatus { s with downloadedBlocks := s.downloadedBlocks + 1 } i
          ReqStatus.succeeded).reports).countP reportSuccess = 0 := by
        rw [setStatus_reports]
        exact hz
      have hInv1 : SessionInv (setStatus { s with downloadedBlocks :=
          s.downloadedBlocks + 1 } i ReqStatus.succeeded) := by
        refine ⟨?_, ?_, ?_, ?_, ?_, ?_, ?_, ?_, ?_, ?_, ?_⟩
        · rw [cBlob]
          exact hInv.blobOne
        · rw [cBlock, setStatus_missingBlocks]
          exact hInv.blocksLe
        · rw [setStatus_downloadedBlocks, dSB]
          exact congrArg (fun n => n + 1) hInv.dEq
        · rw [setStatus_projectDownloaded, cSBlob]
          exact hInv.pdIff
        · rw [setStatus_failed, cFail]
          exact hInv.failedIff
        · rw [setStatus_requestsInProgress]
          exact hInv.inProg
        · rw [hz1]
          exact Nat.zero_le _
        · rw [setStatus_reports, cFail]
          exact hInv.errEq
        · rw [setStatus_reports, setStatus_cancelled]
          exact hInv.cancRep
        · rw [setStatus_reports]
          exact hInv.cancOrd
        · rw [setStatus_reports]
          exact hInv.repGood
      exact invRemoveRequest (invReportProgress hInv1 hz1)

theorem invStep {s s' : SessionState} {e : Event} (hInv : SessionInv s)
    (h : step s e = some s') : SessionInv s' := by
  cases e with
  | dispatch =>
    simp only [step] at h
    by_cases hcf : (s.cancelled || s.failed) = true
    · rw [if_pos hcf] at h
      exact absurd h (by simp)
    · rw [if_neg hcf] at h
      by_cases hceil : MAX_CONCURRENT_REQUESTS ≤ s.requestsInProgress
      · rw [if_pos hceil] at h
        exact absurd h (by simp)
      · rw [if_neg hceil] at h
        cases hm : s.requests[s.nextRequestIndex]? with
        | none =>
          rw [hm] at h
          exact absurd h (by simp)
        | some pr =>
          obtain ⟨req, st⟩ := pr
          rw [hm] at h
          cases st with
          | pending =>
            injection h with h
            subst h
            have hlt : s.requestsInProgress < 6 := by
              simp only [MAX_CONCURRENT_REQUESTS] at hceil
              omega
            exact invDispatch hInv hm hlt
          | inFlight b => exact absurd h (by simp)
          | succeeded => exact absurd h (by simp)
          | failedReq => exact absurd h (by simp)
          | abortedReq => exact absurd h (by simp)
  | cancel =>
    simp only [step] at h
    injection h with h
    subst h
    exact invCancel hInv
  | resolve i r =>
    simp only [step] at h
    cases hm : s.requests[i]? with
    | none =>
      simp only [hm] at h
      exact absurd h (by simp)
    | some pr =>
      obtain ⟨req, st⟩ := pr
      simp only [hm] at h
      cases st with
      | pending => exact absurd h (by simp)
      | succeeded => exact absurd h (by simp)
      | failedReq => exact absurd h (by simp)
      | abortedReq => exact absurd h (by simp)
      | inFlight b =>
        cases r with
        | opCancelled =>
          injection h with h
          subst h
          exact invAborted hInv hm
        | netFailure =>
          injection h with h
          subst h
          exact invOnFailure hInv hm _ (by decide)
        | blobOk data commitOk =>
          cases hkind : req.kind with
          | projectBlob =>
            simp only [hkind] at h
            injection h with h
            subst h
            exact invOnProjectBlobDownloaded hInv hm hkind data commitOk
          | block hsh =>
            simp only [hkind] at h
            exact absurd h (by simp)
        | blockOk decodeOk commitOk =>
          cases hkind : req.kind with
          | projectBlob =>
            simp only [hkind] at h
            exact absurd h (by simp)
          | block hsh =>
            simp only [hkind] at h
            injection h with h
            subst h
            exact invOnBlockDownloaded hInv hm (by rw [hkind]; rfl) decodeOk commitOk

theorem invRun {s s' : SessionState} {evs : List Event} (hInv : SessionInv s)
    (h : run s evs = some s') : SessionInv s' := by
  induction evs generalizing s with
  | nil =>
    simp only [run] at h
    injection h with h
    subst h
    exact hInv
  | cons e es ih =>
    cases hs : step s e with
    | none =>
      simp only [run, hs] at h
      exact absurd h (by simp)
    | some s1 =>
      simp only [run, hs] at h
      exact ih (invStep hInv hs) h

theorem construct_started {snapshot : SnapshotInfo} {localHashes : List String}
    {syncInfo : Option DBProjectData} {s₀ : SessionState}
    (h : construct snapshot localHashes syncInfo = .started s₀) :
    s₀ = initSession snapshot (CalculateKnownBlocks snapshot localHashes) := by
  simp only [construct] at h
  split at h
  · exact absurd h (by simp)
  · injection h with h
    exact h.symm

theorem invStarted {snapshot : SnapshotInfo} {localHashes : List String}
    {syncInfo : Option DBProjectData} {s₀ : SessionState}
    (h : construct snapshot localHashes syncInfo = .started s₀) : SessionInv s₀ := by
  rw [construct_started h]
  exact invInit snapshot localHashes

@[simp] theorem ReportProgress_requests (s : SessionState) :
    (ReportProgress s).requests = s.requests := by
  unfold ReportProgress
  split <;> simp

@[simp] theorem ReportProgress_downloadedBlocks (s : SessionState) :
    (ReportProgress s).downloadedBlocks = s.downloadedBlocks := by
  unfold ReportProgress
  split <;> simp

@[simp] theorem ReportProgress_missingBlocks (s : SessionState) :
    (ReportProgress s).missingBlocks = s.missingBlocks := by
  unfold ReportProgress
  split <;> simp

@[simp] theorem ReportProgress_projectDownloaded (s : SessionState) :
    (ReportProgress s).projectDownloaded = s.projectDownloaded := by
  unfold ReportProgress
  split <;> simp

@[simp] theorem ReportProgress_failed (s : SessionState) :
    (ReportProgress s).failed = s.failed := by
  unfold ReportProgress
  split <;> simp

@[simp] theorem ReportProgress_cancelled (s : SessionState) :
    (ReportProgress s).cancelled = s.cancelled := by
  unfold ReportProgress
  split <;> simp

@[simp] theorem ReportProgress_projectRecord (s : SessionState) :
    (ReportProgress s).projectRecord = s.projectRecord := by
  unfold ReportProgress
  split <;> simp

theorem ReportProgress_reports_cancelled {s : SessionState} (hc : s.cancelled = true) :
    (ReportProgress s).reports = s.reports := by
  unfold ReportProgress
  rw [if_pos hc]

theorem ReportProgress_reports_active {s : SessionState} (hc : s.cancelled = false) :
    (ReportProgress s).reports = s.reports ++
      [{ downloadedBlocks := s.downloadedBlocks, missingBlocks := s.missingBlocks,
         error := "", projectBlobDownloaded := s.projectDownloaded,
         completed := s.downloadedBlocks == s.missingBlocks && s.projectDownloaded,
         success := s.downloadedBlocks == s.missingBlocks && s.projectDownloaded,
         cancelled := false }] := by
  unfold ReportProgress
  rw [if_neg (by simp [hc])]
  rfl

theorem failed_not_complete {s : SessionState} (hInv : SessionInv s)
    (hf : s.failed = true) :
    ¬(s.downloadedBlocks = s.missingBlocks ∧ s.projectDownloaded = true) := by
  rintro ⟨hdm, hpd⟩
  have hpos := hInv.failedIff.mp hf
  obtain ⟨x, hxmem, hxp⟩ := List.countP_pos_iff.mp hpos
  obtain ⟨q, st⟩ := x
  have hst : st = ReqStatus.failedReq := by
    simpa [isFailedPair] using hxp
  subst hst
  cases hq : q.kind with
  | projectBlob =>
    have hqpos : 0 < s.requests.countP
        (fun p => (!(p.2 == ReqStatus.succeeded)) && !(p.1.kind.isBlock)) :=
      List.countP_pos_iff.mpr ⟨(q, .failedReq), hxmem, by simp [hq, RequestKind.isBlock]⟩
    have hdisj := countP_two_disjoint_le isSuccBlobPair
      (fun p => (!(p.2 == ReqStatus.succeeded)) && !(p.1.kind.isBlock)) isBlobPair
      s.requests
      (by
        intro x _ hx
        simp only [isSuccBlobPair, Bool.and_eq_true] at hx
        simp [isBlobPair, hx.2])
      (by
        intro x _ hx
        simp only [Bool.and_eq_true] at hx
        simp [isBlobPair, hx.2])
      (by
        intro x _ hx
        obtain ⟨h1, h2⟩ := hx
        simp only [isSuccBlobPair, Bool.and_eq_true] at h1
        simp only [Bool.and_eq_true, Bool.not_eq_true'] at h2
        rw [h1.1] at h2
        simp at h2)
    have hone := hInv.blobOne
    have hzero : s.requests.countP isSuccBlobPair = 0 := by omega
    have := hInv.pdIff.mp hpd
    omega
  | block hsh =>
    have hqpos : 0 < s.requests.countP
        (fun p => (p.2 == ReqStatus.failedReq) && p.1.kind.isBlock) :=
      List.countP_pos_iff.mpr ⟨(q, .failedReq), hxmem, by simp [hq, RequestKind.isBlock]⟩
    have hdisj := countP_two_disjoint_le isSuccBlockPair
      (fun p => (p.2 == ReqStatus.failedReq) && p.1.kind.isBlock) isBlockPair
      s.requests
      (by
        intro x _ hx
        simp only [isSuccBlockPair, Bool.and_eq_true] at hx
        simp [isBlockPair, hx.2])
      (by
        intro x _ hx
        simp only [Bool.and_eq_true] at hx
        simp [isBlockPair, hx.2])
      (by
        intro x _ hx
        obtain ⟨h1, h2⟩ := hx
        simp only [isSuccBlockPair, Bool.and_eq_true, beq_iff_eq] at h1 h2
        rw [h1.1] at h2
        simp at h2)
    have hble := hInv.blocksLe
    have hd := hInv.dEq
    omega

theorem stepFacts {s s' : SessionState} {e : Event} (hInv : SessionInv s)
    (h : step s e = some s') :
    s'.missingBlocks = s.missingBlocks ∧
    s'.requests.countP isBlockPair = s.requests.countP isBlockPair ∧
    (s.failed = true → s'.failed = true) ∧
    (s.cancelled = true → s'.cancelled = true) ∧
    s'.downloadedBlocks = s.downloadedBlocks + (if isBlockCommit s e then 1 else 0) ∧
    (∃ t, s'.reports = s.reports ++ t ∧
      ∀ r ∈ t, r.success = true → s.failed = false ∧ s.cancelled = false) := by
  have horig := h
  have hInv' := invStep hInv horig
  cases e with
  | dispatch =>
    simp only [step] at h
    by_cases hcf : (s.cancelled || s.failed) = true
    · rw [if_pos hcf] at h
      exact absurd h (by simp)
    · rw [if_neg hcf] at h
      by_cases hceil : MAX_CONCURRENT_REQUESTS ≤ s.requestsInProgress
      · rw [if_pos hceil] at h
        exact absurd h (by simp)
      · rw [if_neg hceil] at h
        cases hm : s.requests[s.nextRequestIndex]? with
        | none =>
          rw [hm] at h
          exact absurd h (by simp)
        | some pr =>
          obtain ⟨req, st⟩ := pr
          rw [hm] at h
          cases st with
          | pending =>
            injection h with h
            subst h
            have cBlock := setStatus_countP_same s s.nextRequestIndex (.inFlight false) hm
              isBlockPair (by rfl)
            refine ⟨setStatus_missingBlocks s _ _, cBlock, ?_, ?_, ?_, [], ?_, by simp⟩
            · rw [setStatus_failed]
              exact id
            · rw [setStatus_cancelled]
              exact id
            · rw [setStatus_downloadedBlocks]
              simp [isBlockCommit]
            · rw [setStatus_reports, List.append_nil]
          | inFlight b => exact absurd h (by simp)
          | succeeded => exact absurd h (by simp)
          | failedReq => exact absurd h (by simp)
          | abortedReq => exact absurd h (by simp)
  | cancel =>
    simp only [step] at h
    injection h with h
    subst h
    refine ⟨rfl, doCancel_countP s isBlockPair (by intro q b b'; rfl), ?_, ?_, ?_,
      [cancelReport (DoCancel s)], Cancel_reports s, ?_⟩
    · rw [Cancel_failed]
      exact id
    · intro
      rfl
    · rw [Cancel_downloadedBlocks]
      simp [isBlockCommit]
    · intro r hr htrue
      have : r = cancelReport (DoCancel s) := by simpa using hr
      subst this
      exact absurd htrue (by simp [cancelReport])
  | resolve i r =>
    simp only [step] at h
    cases hm : s.requests[i]? with
    | none =>
      simp only [hm] at h
      exact absurd h (by simp)
    | some pr =>
      obtain ⟨req, st⟩ := pr
      simp only [hm] at h
      cases st with
      | pending => exact absurd h (by simp)
      | succeeded => exact absurd h (by simp)
      | failedReq => exact absurd h (by simp)
      | abortedReq => exact absurd h (by simp)
      | inFlight b =>
        cases r with
        | opCancelled =>
          injection h with h
          subst h
          have cBlock := setStatus_countP_same s i .abortedReq hm isBlockPair
            (by cases b <;> rfl)
          refine ⟨?_, cBlock, ?_, ?_, ?_, [], ?_, by simp⟩
          · rw [RemoveRequest_missingBlocks, setStatus_missingBlocks]
          · rw [RemoveRequest_failed, setStatus_failed]
            exact id
          · rw [RemoveRequest_cancelled, setStatus_cancelled]
            exact id
          · rw [RemoveRequest_downloadedBlocks, setStatus_downloadedBlocks]
            simp [isBlockCommit]
          · rw [RemoveRequest_reports, setStatus_reports, List.append_nil]
        | netFailure =>
          injection h with h
          subst h
          have cBlock := setStatus_countP_same s i .failedReq hm isBlockPair
            (by cases b <;> rfl)
          refine ⟨OnFailure_missingBlocks s i "Failed to download the cloud project",
            ?_, ?_, ?_, ?_, _,
            OnFailure_reports s i "Failed to download the cloud project", ?_⟩
          · rw [OnFailure_requests]
            exact cBlock
          · intro
            rfl
          · rw [OnFailure_cancelled]
            exact id
          · rw [OnFailure_downloadedBlocks]
            simp [isBlockCommit]
          · intro r hr htrue
            have : r = failureReport
                { RemoveRequest (setStatus s i .failedReq) with failed := true }
                "Failed to download the cloud project" := by
              simpa using hr
            subst this
            exact absurd htrue (by simp [failureReport])
        | blobOk data commitOk =>
          cases hkind : req.kind with
          | block hsh =>
            simp only [hkind] at h
            exact absurd h (by simp)
          | projectBlob =>
            simp only [hkind] at h
            injection h with h
            subst h
            cases hp : parseProjectBlob data with
            | none =>
              have hstate : OnProjectBlobDownloaded s i data commitOk
                  = RemoveRequest (OnFailure s i "Failed to download the cloud project") := by
                unfold OnProjectBlobDownloaded
                rw [hp]
              rw [hstate]
              refine ⟨?_, ?_, ?_, ?_, ?_,
                [failureReport { RemoveRequest (setStatus s i .failedReq) with failed := true }
                  "Failed to download the cloud project"], ?_, ?_⟩
              · rw [RemoveRequest_missingBlocks, OnFailure_missingBlocks]
              · rw [RemoveRequest_requests, OnFailure_requests]
                exact setStatus_countP_same s i .failedReq hm isBlockPair (by cases b <;> rfl)
              · intro
                rfl
              · rw [RemoveRequest_cancelled, OnFailure_cancelled]
                exact id
              · rw [RemoveRequest_downloadedBlocks, OnFailure_downloadedBlocks]
                simp [isBlockCommit]
              · rw [RemoveRequest_reports]
                exact OnFailure_reports s i "Failed to download the cloud project"
              · intro r hr htrue
                have : r = failureReport
                    { RemoveRequest (setStatus s i .failedReq) with failed := true }
                    "Failed to download the cloud project" := by
                  simpa using hr
                subst this
                exact absurd htrue (by simp [failureReport])
            | some record =>
              cases commitOk with
              | false =>
                have hstate : OnProjectBlobDownloaded s i data false
                    = RemoveRequest (OnFailure s i "Failed to update the cloud project") := by
                  unfold OnProjectBlobDownloaded
                  rw [hp]
                  rfl
                rw [hstate]
                refine ⟨?_, ?_, ?_, ?_, ?_,
                  [failureReport { RemoveRequest (setStatus s i .failedReq) with
                    failed := true } "Failed to update the cloud project"], ?_, ?_⟩
                · rw [RemoveRequest_missingBlocks, OnFailure_missingBlocks]
                · rw [RemoveRequest_requests, OnFailure_requests]
                  exact setStatus_countP_same s i .failedReq hm isBlockPair (by cases b <;> rfl)
                · intro
                  rfl
                · rw [RemoveRequest_cancelled, OnFailure_cancelled]
                  exact id
                · rw [RemoveRequest_downloadedBlocks, OnFailure_downloadedBlocks]
                  simp [isBlockCommit]
                · rw [RemoveRequest_reports]
                  exact OnFailure_reports s i "Failed to update the cloud project"
                · intro r hr htrue
                  have : r = failureReport
                      { RemoveRequest (setStatus s i .failedReq) with failed := true }
                      "Failed to update the cloud project" := by
                    simpa using hr
                  subst this
                  exact absurd htrue (by simp [failureReport])
              | true =>
                have hstate : OnProjectBlobDownloaded s i data true
                    = RemoveRequest (ReportProgress (setStatus
                        { s with projectRecord := some record, projectDownloaded := true }
                        i ReqStatus.succeeded)) := by
                  unfold OnProjectBlobDownloaded
                  rw [hp]
                  rfl
                rw [hstate] at hInv' ⊢
                have cBlock2 := setStatus_countP_same
                  ({ s with projectRecord := some record, projectDownloaded := true }
                    : SessionState) i .succeeded hm isBlockPair (by cases b <;> rfl)
                refine ⟨by simp, ?_, by simp, by simp, ?_, ?_⟩
                · simp only [RemoveRequest_requests, ReportProgress_requests]
                  exact cBlock2
                · simp [isBlockCommit]
                · cases hcanc : s.cancelled with
                  | true =>
                    refine ⟨[], ?_, by simp⟩
                    rw [RemoveRequest_reports, ReportProgress_reports_cancelled
                      (by simp [hcanc]), setStatus_reports,
                      List.append_nil]
                  | false =>
                    rw [RemoveRequest_reports, ReportProgress_reports_active
                      (by simp [hcanc]), setStatus_reports]
                    refine ⟨_, rfl, ?_⟩
                    intro r hr htrue
                    refine ⟨?_, rfl⟩
                    by_cases hfail : s.failed = true
                    · exfalso
                      have hf' : (RemoveRequest (ReportProgress (setStatus
                          { s with projectRecord := some record, projectDownloaded := true }
                          i ReqStatus.succeeded))).failed = true := by
                        simpa using hfail
                      have hnc := failed_not_complete hInv' hf'
                      rw [List.mem_singleton] at hr
                      subst hr
                      simp only [Bool.and_eq_true, beq_iff_eq] at htrue
                      apply hnc
                      constructor
                      · simpa using htrue.1
                      · simpa using htrue.2
                    · simpa using hfail
        | blockOk decodeOk commitOk =>
          cases hkind : req.kind with
          | projectBlob =>
            simp only [hkind] at h
            exact absurd h (by simp)
          | block hsh =>
            simp only [hkind] at h
            injection h with h
            subst h
            cases decodeOk with
            | false =>
              have hstate : OnBlockDownloaded s i false commitOk = RemoveRequest
                  (OnFailure s i "Failed to decompress the cloud project block") := rfl
              rw [hstate]
              refine ⟨?_, ?_, ?_, ?_, ?_,
                [failureReport { RemoveRequest (setStatus s i .failedReq) with failed := true }
                  "Failed to decompress the cloud project block"], ?_, ?_⟩
              · rw [RemoveRequest_missingBlocks, OnFailure_missingBlocks]
              · rw [RemoveRequest_requests, OnFailure_requests]
                exact setStatus_countP_same s i .failedReq hm isBlockPair (by cases b <;> rfl)
              · intro
                rfl
              · rw [RemoveRequest_cancelled, OnFailure_cancelled]
                exact id
              · rw [RemoveRequest_downloadedBlocks, OnFailure_downloadedBlocks]
                simp [isBlockCommit, hm]
              · rw [RemoveRequest_reports]
                exact OnFailure_reports s i "Failed to decompress the cloud project block"
              · intro r hr htrue
                have : r = failureReport
                    { RemoveRequest (setStatus s i .failedReq) with failed := true }
                    "Failed to decompress the cloud project block" := by
                  simpa using hr
                subst this
                exact absurd htrue (by simp [failureReport])
            | true =>
              cases commitOk with
              | false =>
                have hstate : OnBlockDownloaded s i true false = RemoveRequest
                    (OnFailure s i "Failed to update the cloud project block") := rfl
                rw [hstate]
                refine ⟨?_, ?_, ?_, ?_, ?_,
                  [failureReport { RemoveRequest (setStatus s i .failedReq) with
                    failed := true } "Failed to update the cloud project block"], ?_, ?_⟩
                · rw [RemoveRequest_missingBlocks, OnFailure_missingBlocks]
                · rw [RemoveRequest_requests, OnFailure_requests]
                  exact setStatus_countP_same s i .failedReq hm isBlockPair (by cases b <;> rfl)
                · intro
                  rfl
                · rw [RemoveRequest_cancelled, OnFailure_cancelled]
                  exact id
                · rw [RemoveRequest_downloadedBlocks, OnFailure_downloadedBlocks]
                  simp [isBlockCommit, hm]
                · rw [RemoveRequest_reports]
                  exact OnFailure_reports s i "Failed to update the cloud project block"
                · intro r hr htrue
                  have : r = failureReport
                      { RemoveRequest (setStatus s i .failedReq) with failed := true }
                      "Failed to update the cloud project block" := by
                    simpa using hr
                  subst this
                  exact absurd htrue (by simp [failureReport])
              | true =>
                have hstate : OnBlockDownloaded s i true true = RemoveRequest
                    (ReportProgress (setStatus
                      { s with downloadedBlocks := s.downloadedBlocks + 1 }
                      i ReqStatus.succeeded)) := rfl
                rw [hstate] at hInv' ⊢
                have cBlock2 := setStatus_countP_same
                  ({ s with downloadedBlocks := s.downloadedBlocks + 1 }
                    : SessionState) i .succeeded hm isBlockPair (by cases b <;> rfl)
                refine ⟨by simp, ?_, by simp, by simp, ?_, ?_⟩
                · simp only [RemoveRequest_requests, ReportProgress_requests]
                  exact cBlock2
                · simp [isBlockCommit, hm, hkind, RequestKind.isBlock]
                · cases hcanc : s.cancelled with
                  | true =>
                    refine ⟨[], ?_, by simp⟩
                    rw [RemoveRequest_reports, ReportProgress_reports_cancelled
                      (by simp [hcanc]), setStatus_reports,
                      List.append_nil]
                  | false =>
                    rw [RemoveRequest_reports, ReportProgress_reports_active
                      (by simp [hcanc]), setStatus_reports]
                    refine ⟨_, rfl, ?_⟩
                    intro r hr htrue
                    refine ⟨?_, rfl⟩
                    by_cases hfail : s.failed = true
                    · exfalso
                      have hf' : (RemoveRequest (ReportProgress (setStatus
                          { s with downloadedBlocks := s.downloadedBlocks + 1 }
                          i ReqStatus.succeeded))).failed = true := by
                        simpa using hfail
                      have hnc := failed_not_complete hInv' hf'
                      rw [List.mem_singleton] at hr
                      subst hr
                      simp only [Bool.and_eq_true, beq_iff_eq] at htrue
                      apply hnc
                      constructor
                      · simpa using htrue.1
                      · simpa using htrue.2
                    · simpa using hfail

theorem runFacts {s s' : SessionState} {evs : List Event} (hInv : SessionInv s)
    (h : run s evs = some s') :
    s'.missingBlocks = s.missingBlocks ∧
    s'.requests.countP isBlockPair = s.requests.countP isBlockPair ∧
    (s.failed = true → s'.failed = true) ∧
    (s.cancelled = true → s'.cancelled = true) ∧
    s.downloadedBlocks ≤ s'.downloadedBlocks ∧
    (∃ t, s'.reports = s.reports ++ t) := by
  induction evs generalizing s with
  | nil =>
    simp only [run] at h
    injection h with h
    subst h
    exact ⟨rfl, rfl, id, id, Nat.le_refl _, [], by simp⟩
  | cons e es ih =>
    cases hs : step s e with
    | none =>
      simp only [run, hs] at h
      exact absurd h (by simp)
    | some s1 =>
      simp only [run, hs] at h
      obtain ⟨m1, bc1, fm1, cm1, d1, t1, happ1, _⟩ := stepFacts hInv hs
      obtain ⟨m2, bc2, fm2, cm2, d2, t2, happ2⟩ := ih (invStep hInv hs) h
      refine ⟨m2.trans m1, bc2.trans bc1, fun hf => fm2 (fm1 hf),
        fun hc => cm2 (cm1 hc), ?_, t1 ++ t2, ?_⟩
      · omega
      · rw [happ2, happ1, List.append_assoc]

theorem run_flagged_reports {s s' : SessionState} {evs : List Event} (hInv : SessionInv s)
    (hflag : s.failed = true ∨ s.cancelled = true) (h : run s evs = some s') :
    ∃ t, s'.reports = s.reports ++ t ∧ ∀ r ∈ t, r.success = false := by
  induction evs generalizing s with
  | nil =>
    simp only [run] at h
    injection h with h
    subst h
    exact ⟨[], by simp, by simp⟩
  | cons e es ih =>
    cases hs : step s e with
    | none =>
      simp only [run, hs] at h
      exact absurd h (by simp)
    | some s1 =>
      simp only [run, hs] at h
      obtain ⟨_, _, fm1, cm1, _, t1, happ1, hcert⟩ := stepFacts hInv hs
      have hflag1 : s1.failed = true ∨ s1.cancelled = true := by
        cases hflag with
        | inl hf => exact Or.inl (fm1 hf)
        | inr hc => exact Or.inr (cm1 hc)
      obtain ⟨t2, happ2, hsucc2⟩ := ih (invStep hInv hs) hflag1 h
      refine ⟨t1 ++ t2, by rw [happ2, happ1, List.append_assoc], ?_⟩
      intro r hr
      rcases List.mem_append.mp hr with h1 | h2
      · cases hsr : r.success with
        | false => rfl
        | true =>
          obtain ⟨hff, hcf⟩ := hcert r h1 hsr
          cases hflag with
          | inl hf => rw [hf] at hff; exact absurd hff (by simp)
          | inr hc => rw [hc] at hcf; exact absurd hcf (by simp)
      · exact hsucc2 r h2

theorem dispatch_requires_slot {s s' : SessionState} (h : step s .dispatch = some s') :
    s.requestsInProgress < 6 := by
  simp only [step] at h
  by_cases hcf : (s.cancelled || s.failed) = true
  · rw [if_pos hcf] at h
    exact absurd h (by simp)
  · rw [if_neg hcf] at h
    by_cases hceil : MAX_CONCURRENT_REQUESTS ≤ s.requestsInProgress
    · rw [if_pos hceil] at h
      exact absurd h (by simp)
    · simp only [MAX_CONCURRENT_REQUESTS] at hceil
      omega

theorem step_downloadedBlocks {s s' : SessionState} {e : Event} (hInv : SessionInv s)
    (h : step s e = some s') :
    s'.downloadedBlocks = s.downloadedBlocks + (if isBlockCommit s e then 1 else 0) :=
  (stepFacts hInv h).2.2.2.2.1

/-- C1 (amended): when the known-block set has as many elements as the
snapshot's block list (so it covers every required block and the list
repeats no normalized hash) and the external record already shows this
exact snapshot as Synced, construction short-circuits: it issues no
network requests, starts no scheduler thread, and the callback is
invoked exactly once with the report
`{0, 0, empty error, true, true, true, false}`. -/
theorem C1_short_circuit (snapshot : SnapshotInfo) (localHashes : List String)
    (syncInfo : Option DBProjectData)
    (hcard : (CalculateKnownBlocks snapshot localHashes).length = snapshot.Blocks.length)
    (hsync : syncInfoMatchesSynced snapshot syncInfo = true) :
    construct snapshot localHashes syncInfo = .shortCircuit
      { downloadedBlocks := 0, missingBlocks := 0, error := "",
        projectBlobDownloaded := true, completed := true, success := true,
        cancelled := false } := by
  unfold construct
  rw [if_pos]
  simp [hcard, hsync]

theorem C1_short_circuit_witness :
    construct ⟨"s1", "u", [⟨"h1", "u1"⟩]⟩ ["H1"] (some ⟨"s1", .SyncStatusSynced⟩)
      = ConstructResult.shortCircuit
        { downloadedBlocks := 0, missingBlocks := 0, error := "",
          projectBlobDownloaded := true, completed := true, success := true,
          cancelled := false } :=
  C1_short_circuit ⟨"s1", "u", [⟨"h1", "u1"⟩]⟩ ["H1"] (some ⟨"s1", .SyncStatusSynced⟩)
    (by decide) (by decide)

theorem C1_short_circuit_counterexample :
    coversAll snapDup (CalculateKnownBlocks snapDup ["A"]) = true ∧
    syncInfoMatchesSynced snapDup (some infoDup) = true ∧
    isShortCircuit (construct snapDup ["A"] (some infoDup)) = false ∧
    ((startedState (construct snapDup ["A"] (some infoDup))).bind
      (fun s₀ => run s₀ [Event.dispatch])).map (fun s => s.requestsInProgress)
      = some 1 := by
  decide

/-- C3 (amended): `Cancel()` is accepted in every state; it marks the
session cancelled, requests `abort()` on every in-flight response
(requesting it again is a no-op), leaves the failure flag untouched,
and synchronously invokes the callback once with a report whose
`cancelled` field is true and whose `completed` field is also true
(the source passes `true` for `completed` in the cancel report). -/
theorem C3_cancel (s : SessionState) :
    step s Event.cancel = some (Cancel s) ∧
    (Cancel s).cancelled = true ∧
    (Cancel s).failed = s.failed ∧
    (Cancel s).reports = s.reports ++
      [{ downloadedBlocks := s.downloadedBlocks, missingBlocks := s.missingBlocks,
         error := "", projectBlobDownloaded := s.projectDownloaded,
         completed := true, success := false, cancelled := true }] ∧
    (∀ p ∈ (Cancel s).requests, ∀ b, p.2 = ReqStatus.inFlight b → b = true) ∧
    DoCancel (DoCancel s) = DoCancel s := by
  refine ⟨rfl, rfl, rfl, rfl, ?_, ?_⟩
  · intro p hp b hb
    have hp' : p ∈ (DoCancel s).requests := hp
    rw [DoCancel, List.mem_map] at hp'
    obtain ⟨q, _, rfl⟩ := hp'
    cases hq : q.2 with
    | inFlight c =>
      simp only [hq] at hb
      exact (ReqStatus.inFlight.inj hb).symm
    | pending => simp only [hq] at hb; cases hb
    | succeeded => simp only [hq] at hb; cases hb
    | failedReq => simp only [hq] at hb; cases hb
    | abortedReq => simp only [hq] at hb; cases hb
  · have hreq : (DoCancel s).requests
        = s.requests.map (fun p =>
            match p.2 with
            | ReqStatus.inFlight _ => (p.1, ReqStatus.inFlight true)
            | _ => p) := rfl
    have hmap : s.requests.map
          ((fun p : PendingRequest × ReqStatus =>
            match p.2 with
            | ReqStatus.inFlight _ => (p.1, ReqStatus.inFlight true)
            | _ => p) ∘ (fun p =>
            match p.2 with
            | ReqStatus.inFlight _ => (p.1, ReqStatus.inFlight true)
            | _ => p))
        = s.requests.map (fun p =>
            match p.2 with
            | ReqStatus.inFlight _ => (p.1, ReqStatus.inFlight true)
            | _ => p) := by
      apply List.map_congr_left
      intro a _
      cases ha : a.2 <;> simp [Function.comp, ha]
    conv_lhs => rw [DoCancel, hreq, List.map_map, hmap]
    rfl

theorem C3_cancel_counterexample :
    (run sEx [Event.dispatch, Event.cancel]).map
        (fun s => s.reports.map (fun r => (r.completed, r.success, r.cancelled)))
      = some [(true, false, true)] := by
  decide

/-- C4 (amended): once the session has terminally failed, no later
event can produce a successful report: every report appended afterwards
has `success = false` (reports may still be appended — in particular
repeated failures and a subsequent `Cancel()` still invoke the
callback, and those reports carry `completed = true`).  This holds
independently of handler interleaving: a terminal failure means some
request's chain never commits, so the counters a progress report loads
can never show all block requests committed with the blob downloaded.
The analogous statement for the cancelled flag alone is *not*
interleaving-robust in the source — `ReportProgress` checks
`mCancelled` before its unlocked counter loads and callback, so a
success report already past the check can fire after a concurrent
`Cancel()` — and is therefore not claimed here. -/
theorem C4_no_success_after_terminal {snapshot : SnapshotInfo}
    {localHashes : List String} {syncInfo : Option DBProjectData}
    {s₀ s s' : SessionState} {evs1 evs2 : List Event}
    (hstart : construct snapshot localHashes syncInfo = .started s₀)
    (hrun1 : run s₀ evs1 = some s)
    (hfail : s.failed = true)
    (hrun2 : run s evs2 = some s') :
    ∃ t, s'.reports = s.reports ++ t ∧ ∀ r ∈ t, r.success = false :=
  run_flagged_reports (invRun (invStarted hstart) hrun1) (Or.inl hfail) hrun2

theorem C4_no_success_after_terminal_witness :
    ∃ t, sCancelEx.reports = sMidEx.reports ++ t ∧ ∀ r ∈ t, r.success = false :=
  @C4_no_success_after_terminal snapEx [] none sEx sMidEx sCancelEx
    [Event.dispatch, Event.resolve 0 Resolution.netFailure] [Event.cancel]
    (by decide) (by decide) (by decide) (by decide)

theorem C4_no_success_after_terminal_counterexample :
    sMidEx.failed = true ∧
    run sMidEx [Event.cancel] = some sCancelEx ∧
    sMidEx.reports.length = 1 ∧
    (sCancelEx.reports.drop 1).map (fun r => r.completed) = [true] := by
  decide

/-- C5 (amended): the per-kind at-most-one bounds of the original claim
do not hold; what the code guarantees, independently of handler
interleaving, is: the number of error reports equals the number of
terminally failed requests — `OnFailure` has no once-only guard, so
each terminal failure invokes the callback with its own error report
and several error reports can be delivered — and every report that
announces `success = true` reports the work complete in its own fields
(`downloadedBlocks = missingBlocks`, `projectBlobDownloaded = true`,
`completed = true`, empty error, not cancelled), because
`ReportProgress` computes `completed` from the same loaded values it
passes to the callback.  An at-most-one bound on success reports is
deliberately not claimed: the source's `fetch_add` and the loads in
`ReportProgress` are not performed under a common lock, so the last two
block commits can each observe the final counts and both emit a
success report. -/
theorem C5_report_multiplicity {snapshot : SnapshotInfo} {localHashes : List String}
    {syncInfo : Option DBProjectData} {s₀ s : SessionState} {evs : List Event}
    (hstart : construct snapshot localHashes syncInfo = .started s₀)
    (hrun : run s₀ evs = some s) :
    s.reports.countP reportHasError = s.requests.countP isFailedPair ∧
    ∀ r ∈ s.reports, reportSuccess r = true →
      r.downloadedBlocks = r.missingBlocks ∧ r.projectBlobDownloaded = true ∧
      r.completed = true ∧ r.error = "" ∧ r.cancelled = false := by
  have hInv := invRun (invStarted hstart) hrun
  exact ⟨hInv.errEq, hInv.repGood⟩

theorem C5_report_multiplicity_witness :
    sHappyEx.reports.countP reportHasError = sHappyEx.requests.countP isFailedPair ∧
    ∀ r ∈ sHappyEx.reports, reportSuccess r = true →
      r.downloadedBlocks = r.missingBlocks ∧ r.projectBlobDownloaded = true ∧
      r.completed = true ∧ r.error = "" ∧ r.cancelled = false :=
  let h := @C5_report_multiplicity snapEx [] none sEx sHappyEx
    [Event.dispatch, Event.dispatch, Event.resolve 1 (Resolution.blockOk true true),
      Event.resolve 0 (Resolution.blobOk okPayload true)] (by decide) (by decide)
  ⟨h.1, h.2⟩

theorem C5_report_multiplicity_counterexample :
    (run sEx [Event.dispatch, Event.dispatch, Event.resolve 0 Resolution.netFailure,
        Event.resolve 1 Resolution.netFailure]).map
      (fun s => s.reports.countP reportHasError) = some 2 ∧ ¬(2 ≤ 1) := by
  decide

/-- C6 (amended): the framing validation of a downloaded project blob
rejects every payload shorter than 8 bytes, and on a rejected payload
the handler runs the failure path: the session is marked failed, the
stored project record is untouched, the project blob stays
not-downloaded, and the callback is invoked once with an error report
carrying the text "Failed to download the cloud project",
`projectBlobDownloaded = false`, `completed = true` (the source passes
`true`), `success = false` and `cancelled = false`.  The second length
check compares `data.size() < 8 + dictSize` in `uint64_t` arithmetic,
so the sum wraps modulo 2^64 and a declared dictionary length near
2^64 slips past the check. -/
theorem C6_blob_framing {snapshot : SnapshotInfo} {localHashes : List String}
    {syncInfo : Option DBProjectData} {s₀ s : SessionState} {evs : List Event}
    {i : Nat} {req : PendingRequest} {b : Bool} (data : List (Fin 256))
    (hstart : construct snapshot localHashes syncInfo = .started s₀)
    (hrun : run s₀ evs = some s)
    (hreq : s.requests[i]? = some (req, ReqStatus.inFlight b))
    (hkind : req.kind = RequestKind.projectBlob)
    (hbad : parseProjectBlob data = none) :
    (∀ d : List (Fin 256), d.length < 8 → parseProjectBlob d = none) ∧
    step s (Event.resolve i (Resolution.blobOk data true))
      = some (RemoveRequest (OnFailure s i "Failed to download the cloud project")) ∧
    (RemoveRequest (OnFailure s i "Failed to download the cloud project")).failed
      = true ∧
    (RemoveRequest (OnFailure s i "Failed to download the cloud project")).projectRecord
      = s.projectRecord ∧
    s.projectDownloaded = false ∧
    (RemoveRequest (OnFailure s i "Failed to download the cloud project")).reports
      = s.reports ++
        [{ downloadedBlocks := s.downloadedBlocks, missingBlocks := s.missingBlocks,
           error := "Failed to download the cloud project",
           projectBlobDownloaded := false, completed := true, success := false,
           cancelled := false }] := by
  have hInv := invRun (invStarted hstart) hrun
  have hpd : s.projectDownloaded = false := blob_not_downloaded hInv hreq hkind
  have hstate : OnProjectBlobDownloaded s i data true
      = RemoveRequest (OnFailure s i "Failed to download the cloud project") := by
    unfold OnProjectBlobDownloaded
    rw [hbad]
  refine ⟨?_, ?_, by simp, by simp, hpd, ?_⟩
  · intro d hd
    unfold parseProjectBlob
    rw [if_pos hd]
  · simp only [step, hreq, hkind]
    rw [hstate]
  · rw [RemoveRequest_reports, OnFailure_reports]
    simp [failureReport, hpd]

theorem C6_blob_framing_witness :
    step sDispEx (Event.resolve 0 (Resolution.blobOk [1, 2, 3] true))
      = some (RemoveRequest (OnFailure sDispEx 0 "Failed to download the cloud project")) ∧
    sDispEx.projectDownloaded = false :=
  let h := @C6_blob_framing snapEx [] none sEx sDispEx [Event.dispatch] 0
    ⟨"urlE", RequestKind.projectBlob⟩ false [1, 2, 3]
    (by decide) (by decide) (by decide) (by decide) (by decide)
  ⟨h.2.1, h.2.2.2.2.1⟩

theorem C6_blob_framing_counterexample :
    (run sEx [Event.dispatch, Event.resolve 0 (Resolution.blobOk [1, 2, 3] true)]).map
        (fun s => s.reports.map
          (fun r => (r.error != "", r.projectBlobDownloaded, r.completed, r.success)))
      = some [(true, false, true, false)] ∧
    leUInt64 (wrapPayload.take 8) = 2 ^ 64 - 6 ∧
    wrapPayload.length < 8 + leUInt64 (wrapPayload.take 8) ∧
    (parseProjectBlob wrapPayload).isSome = true := by
  decide

/-- C7: a session that does not short-circuit is created with one
pending request per missing item: the project-blob request (the
snapshot's file url) first, then one block request per snapshot block
whose uppercased hash is not in the known set, each carrying the
block's url and uppercased hash; `missingBlocks` is the block-list
length minus the known count and the downloaded counter starts at
zero. -/
theorem C7_request_generation {snapshot : SnapshotInfo} {localHashes : List String}
    {syncInfo : Option DBProjectData} {s₀ : SessionState}
    (hstart : construct snapshot localHashes syncInfo = .started s₀) :
    s₀.requests = (mkRequests snapshot (CalculateKnownBlocks snapshot localHashes)).map
        (fun r => (r, ReqStatus.pending)) ∧
    mkRequests snapshot (CalculateKnownBlocks snapshot localHashes)
      = ⟨snapshot.FileUrl, RequestKind.projectBlob⟩ ::
        (snapshot.Blocks.filter (fun b =>
            !((CalculateKnownBlocks snapshot localHashes).contains (ToUpper b.Hash)))).map
          (fun b => ⟨b.Url, RequestKind.block (ToUpper b.Hash)⟩) ∧
    s₀.missingBlocks
      = snapshot.Blocks.length - (CalculateKnownBlocks snapshot localHashes).length ∧
    s₀.downloadedBlocks = 0 := by
  rw [construct_started hstart]
  exact ⟨rfl, rfl, rfl, rfl⟩

theorem C7_request_generation_witness :
    sScen.requests = (mkRequests snapScen (CalculateKnownBlocks snapScen ["B2"])).map
        (fun r => (r, ReqStatus.pending)) ∧
    sScen.missingBlocks
      = snapScen.Blocks.length - (CalculateKnownBlocks snapScen ["B2"]).length ∧
    sScen.downloadedBlocks = 0 :=
  let h := @C7_request_generation snapScen ["B2"] none sScen (by decide)
  ⟨h.1, h.2.2.1, h.2.2.2⟩

/-- C8: in every reachable state the downloaded-block counter never
exceeds `missingBlocks`, `missingBlocks` is fixed at its construction
value for the whole session, and the counter increments by exactly one
on a successfully decoded and committed block download and stays
unchanged on every other event. -/
theorem C8_downloaded_bounds {snapshot : SnapshotInfo} {localHashes : List String}
    {syncInfo : Option DBProjectData} {s₀ s : SessionState} {evs : List Event}
    (hstart : construct snapshot localHashes syncInfo = .started s₀)
    (hrun : run s₀ evs = some s) :
    s.downloadedBlocks ≤ s.missingBlocks ∧
    s.missingBlocks = s₀.missingBlocks ∧
    (∀ s' e, step s e = some s' →
      s'.downloadedBlocks = s.downloadedBlocks
        + (if isBlockCommit s e then 1 else 0)) := by
  have hInv := invRun (invStarted hstart) hrun
  refine ⟨?_, (runFacts (invStarted hstart) hrun).1, fun s' e hs => step_downloadedBlocks hInv hs⟩
  have hmono : s.requests.countP isSuccBlockPair ≤ s.requests.countP isBlockPair :=
    List.countP_mono_left (fun p _ hp => by
      simp only [isSuccBlockPair, Bool.and_eq_true] at hp
      exact hp.2)
  have := hInv.dEq
  have := hInv.blocksLe
  omega

theorem C8_downloaded_bounds_witness :
    sHappyEx.downloadedBlocks ≤ sHappyEx.missingBlocks ∧
    sHappyEx.missingBlocks = sEx.missingBlocks :=
  let h := @C8_downloaded_bounds snapEx [] none sEx sHappyEx
    [Event.dispatch, Event.dispatch, Event.resolve 1 (Resolution.blockOk true true),
      Event.resolve 0 (Resolution.blobOk okPayload true)] (by decide) (by decide)
  ⟨h.1, h.2.1⟩

/-- C9: in every reachable state at most `MAX_CONCURRENT_REQUESTS = 6`
requests are in progress, and the scheduler can only dispatch another
request when the in-flight count is strictly below the ceiling (at the
ceiling the loop blocks on its condition variable, modelled by the
dispatch event being disabled). -/
theorem C9_inflight_ceiling {snapshot : SnapshotInfo} {localHashes : List String}
    {syncInfo : Option DBProjectData} {s₀ s : SessionState} {evs : List Event}
    (hstart : construct snapshot localHashes syncInfo = .started s₀)
    (hrun : run s₀ evs = some s) :
    s.requestsInProgress ≤ 6 ∧
    MAX_CONCURRENT_REQUESTS = 6 ∧
    (∀ s', step s Event.dispatch = some s' → s.requestsInProgress < 6) :=
  ⟨(invRun (invStarted hstart) hrun).inProg, rfl, fun _ hs => dispatch_requires_slot hs⟩

theorem C9_inflight_ceiling_witness :
    sDispEx.requestsInProgress ≤ 6 ∧ MAX_CONCURRENT_REQUESTS = 6 :=
  let h := @C9_inflight_ceiling snapEx [] none sEx sDispEx [Event.dispatch]
    (by decide) (by decide)
  ⟨h.1, h.2.1⟩

/-- C10 (amended): when a normalized block hash occurs on two or more
of the snapshot's block descriptors and is known locally, the session
is created with fewer block requests than `missingBlocks` (the known
count subtracted from the block-list length undercounts the remaining
work, since one local copy covers all duplicates).  In every reachable
state of such a session the downloaded counter can never reach
`missingBlocks`, so no report the session ever emits is successful:
the sync cannot complete successfully even though every failure report
still carries `completed = true`. -/
theorem C10_duplicate_hash_stall {snapshot : SnapshotInfo} {localHashes : List String}
    {syncInfo : Option DBProjectData} {s₀ s : SessionState} {evs : List Event}
    {h : String}
    (hstart : construct snapshot localHashes syncInfo = .started s₀)
    (hmem : h ∈ CalculateKnownBlocks snapshot localHashes)
    (hdup : 2 ≤ (remoteBlockHashes snapshot).count h)
    (hrun : run s₀ evs = some s) :
    s₀.requests.countP isBlockPair < s₀.missingBlocks ∧
    s.downloadedBlocks ≠ s.missingBlocks ∧
    ∀ r ∈ s.reports, reportSuccess r = false := by
  have hInv := invRun (invStarted hstart) hrun
  have hlt : s₀.requests.countP isBlockPair < s₀.missingBlocks := by
    rw [construct_started hstart]
    exact init_blocksLt snapshot localHashes h hmem hdup
  have hfacts := runFacts (invStarted hstart) hrun
  have hmono : s.requests.countP isSuccBlockPair ≤ s.requests.countP isBlockPair :=
    List.countP_mono_left (fun p _ hp => by
      simp only [isSuccBlockPair, Bool.and_eq_true] at hp
      exact hp.2)
  have hne : s.downloadedBlocks ≠ s.missingBlocks := by
    have hd := hInv.dEq
    have hm := hfacts.1
    have hb := hfacts.2.1
    omega
  refine ⟨hlt, hne, ?_⟩
  have hz := no_success_reports_of_not_complete hInv (fun hc => hne hc.1)
  intro r hr
  have := (List.countP_eq_zero.mp hz) r hr
  exact Bool.not_eq_true _ ▸ (by simpa using this)

theorem C10_duplicate_hash_stall_witness :
    sDup3.requests.countP isBlockPair < sDup3.missingBlocks ∧
    sDup3.downloadedBlocks ≠ sDup3.missingBlocks :=
  let hth := @C10_duplicate_hash_stall snapDup3 ["A"] none sDup3 sDup3 [] "A"
    (by decide) (by decide) (by decide) (by decide)
  ⟨hth.1, hth.2.1⟩

theorem C10_duplicate_hash_stall_counterexample :
    construct snapDup3 ["A"] none = ConstructResult.started sDup3 ∧
    "A" ∈ CalculateKnownBlocks snapDup3 ["A"] ∧
    2 ≤ (remoteBlockHashes snapDup3).count "A" ∧
    (run sDup3 [Event.dispatch, Event.resolve 0 Resolution.netFailure]).map
        (fun s => s.reports.map (fun r => r.completed)) = some [true] := by
  decide
